import Mathlib

/-!
Verification development for `scripts/logfire_query.py`, a command-line tool
that loads a bearer token from a local `.env_DIS` file, issues one HTTP GET
with a SQL string against a fixed endpoint, and renders the JSON response.

The script is shallowly embedded below: file contents become `List String`
(one element per line, without the trailing newline, which is equivalent here
because every use either tests a prefix or strips whitespace), the single HTTP
exchange becomes an explicit `HttpResult` value consumed by `run_query`,
standard output becomes a `List String` of printed lines, and process
termination becomes an explicit `Termination` value.  Python's `json` module
(`response.json()`, `json.dumps(data, indent=2)`) is modelled by the `Json`
type with `json_dumps` / `json_loads` below; JSON numbers are modelled as
integers.
-/

/-! ## Python-style string primitives (structural, `List Char` based) -/

/-- Whitespace characters recognised by Python's `str.strip()` (ASCII range;
the rare non-ASCII Unicode whitespace is not modelled). -/
def isPyWs (c : Char) : Bool :=
  c = ' ' || c = '\t' || c = '\n' || c = '\r' || c = '\x0b' || c = '\x0c'

def dropLeadingWs : List Char → List Char
  | [] => []
  | c :: cs => if isPyWs c then dropLeadingWs cs else c :: cs

/-- Models Python `s.strip()`: remove leading and trailing whitespace. -/
def pyStrip (s : String) : String :=
  String.mk (dropLeadingWs ((dropLeadingWs s.data.reverse).reverse))

def startsAux : List Char → List Char → Bool
  | [], _ => true
  | _ :: _, [] => false
  | a :: as, b :: bs => a == b && startsAux as bs

/-- Models Python `s.startswith(pat)`. -/
def strStarts (s pat : String) : Bool := startsAux pat.data s.data

def afterEqList : List Char → List Char
  | [] => []
  | c :: cs => if c = '=' then cs else afterEqList cs

/-- Models Python `line.split('=', 1)[1]`: everything after the first `'='`.
The script only applies this to lines that start with `"LOGFIRE_READ_TOKEN="`,
which always contain a `'='`; for a line without one the model returns `""`
(that case is unreachable in `load_api_key`). -/
def afterFirstEq (s : String) : String := String.mk (afterEqList s.data)

/-! ## Credential loader (`load_api_key`, script lines 11-25) -/

/-- Observable result of `load_api_key`:
* `token s` — the function returns `s` (line 25);
* `missingExit` — it printed `"Error: Could not find Logfire read token in
  .env_DIS"` and called `exit(1)` (lines 21-23);
* `fileError` — `open(".env_DIS")` on line 15 raised; the exception is not
  caught anywhere in the script, so the process dies with a traceback and a
  non-zero status, without ever reaching the curated message. -/
inductive LoadOutcome where
  | token (secret : String)
  | missingExit
  | fileError
deriving DecidableEq

def tokenKeyLabel : String := "LOGFIRE_READ_TOKEN="

def missingTokenMsg : String := "Error: Could not find Logfire read token in .env_DIS"

/-- First line of the file that starts with `"LOGFIRE_READ_TOKEN="` (the loop
on lines 16-19 breaks at the first match). -/
def findTokenLine : List String → Option String
  | [] => none
  | l :: ls => if strStarts l tokenKeyLabel then some l else findTokenLine ls

/-- Models `load_api_key` (lines 11-25).  `file = none` models an unreadable
`.env_DIS` (`open` raises).  After the loop the code runs `if not api_key`,
which is also true for the *empty* string, so a matching line whose value
strips to `""` is treated exactly like a missing key. -/
def load_api_key (file : Option (List String)) : LoadOutcome :=
  match file with
  | none => .fileError
  | some lines =>
    match findTokenLine lines with
    | none => .missingExit
    | some l =>
      if pyStrip (afterFirstEq l) = "" then .missingExit
      else .token (pyStrip (afterFirstEq l))

/-! ## Claims C1, C2, C10 -/

/-- C1 (counterexample): the claim says that for *every* file containing a
line with prefix `LOGFIRE_READ_TOKEN=`, `load_api_key` returns the stripped
text after the first `'='` of the first such line.  The file consisting of the
single line `"LOGFIRE_READ_TOKEN="` contains such a line with stripped value
`""`, yet `load_api_key` does not return `""`: it takes the `if not api_key`
branch and exits with status 1 instead. -/
theorem c1_counterexample :
    findTokenLine (["LOGFIRE_READ_TOKEN="]) = some ("LOGFIRE_READ_TOKEN=") ∧
    load_api_key (some (["LOGFIRE_READ_TOKEN="])) ≠
      LoadOutcome.token (pyStrip (afterFirstEq ("LOGFIRE_READ_TOKEN="))) := by
  decide

/-- C1 (amended): for every credential file that contains a line whose prefix
is `LOGFIRE_READ_TOKEN=`, *provided the text after the first `'='` of the
first such line is non-empty after stripping*, `load_api_key` returns exactly
that stripped text, regardless of any other lines present before or after
(they only influence which line is the first match). -/
theorem c1_token_returned (lines : List String) (l : String)
    (hfind : findTokenLine lines = some l)
    (hne : pyStrip (afterFirstEq l) ≠ "") :
    load_api_key (some lines) = LoadOutcome.token (pyStrip (afterFirstEq l)) := by
  simp only [load_api_key, hfind]
  rw [if_neg hne]

/-- C1 (witness): on the file `FOO=1` / `LOGFIRE_READ_TOKEN= abc123 ` /
`BAR=2` the loader returns `"abc123"`. -/
theorem c1_witness :
    load_api_key (some (["FOO=1", "LOGFIRE_READ_TOKEN= abc123 ", "BAR=2"])) =
      LoadOutcome.token ("abc123") :=
  c1_token_returned (["FOO=1", "LOGFIRE_READ_TOKEN= abc123 ", "BAR=2"])
    ("LOGFIRE_READ_TOKEN= abc123 ") rfl (by decide)

/-- C2 (counterexample): the claim says that when the credential file cannot
be opened the program fails the same way as for a missing key, by printing a
user-facing message and exiting.  In the code, `open` on line 15 sits outside
every `try`, so an unopenable file raises an uncaught exception (traceback,
non-zero status) and never reaches the curated message / `exit(1)` path. -/
theorem c2_counterexample :
    load_api_key none ≠ LoadOutcome.missingExit ∧
    load_api_key none = LoadOutcome.fileError := by
  decide

/-- C2 (amended): if the file opens but end-of-file is reached without any
line whose prefix is `LOGFIRE_READ_TOKEN=`, `load_api_key` prints the
missing-token message and terminates with exit status 1; if the file cannot
be opened, the `open` error propagates uncaught, also terminating the process
with a non-zero status (but with a traceback, not the curated message).  In
neither case is any secret returned or substituted: a secret is only ever
returned from an openable file, and it is never the empty string. -/
theorem c2_missing_credential :
    (∀ lines : List String, findTokenLine lines = none →
      load_api_key (some lines) = LoadOutcome.missingExit) ∧
    load_api_key none = LoadOutcome.fileError ∧
    (∀ file s, load_api_key file = LoadOutcome.token s → file ≠ none ∧ s ≠ "") := by
  refine ⟨?_, rfl, ?_⟩
  · intro lines h
    simp only [load_api_key, h]
  · intro file s h
    match file with
    | none => simp [load_api_key] at h
    | some lines =>
      refine ⟨by simp, ?_⟩
      match hf : findTokenLine lines with
      | none =>
        simp [load_api_key, hf] at h
      | some l =>
        simp only [load_api_key, hf] at h
        by_cases he : pyStrip (afterFirstEq l) = ""
        · rw [if_pos he] at h
          exact absurd h (by simp)
        · rw [if_neg he] at h
          have hs : pyStrip (afterFirstEq l) = s := by
            injection h
          rw [← hs]
          exact he

/-- C2 (witness): a file containing only `FOO=1` has no token line, and the
loader exits through the curated-message path. -/
theorem c2_witness :
    load_api_key (some (["FOO=1"])) = LoadOutcome.missingExit :=
  c2_missing_credential.1 (["FOO=1"]) rfl

/-- C10 (counterexample): the claim quantifies over every file that contains
*a* line `LOGFIRE_READ_TOKEN=` with empty value.  The two-line file
`LOGFIRE_READ_TOKEN=abc` / `LOGFIRE_READ_TOKEN=` contains such a line, yet the
loader returns `"abc"` from the *first* matching line and never reaches the
empty one, so it does not treat the credential as missing. -/
theorem c10_counterexample :
    ((["LOGFIRE_READ_TOKEN=abc", "LOGFIRE_READ_TOKEN="]).any
      (fun l => strStarts l tokenKeyLabel && (pyStrip (afterFirstEq l) == ""))) = true ∧
    load_api_key (some (["LOGFIRE_READ_TOKEN=abc", "LOGFIRE_READ_TOKEN="])) =
      LoadOutcome.token ("abc") := by
  decide

/-- C10 (amended): if the *first* line whose prefix is `LOGFIRE_READ_TOKEN=`
has a value that is empty or consists only of whitespace, `load_api_key`
treats the credential as missing even though the key is present: it prints the
missing-token error message and exits with status 1, and the empty string is
never returned as the secret. -/
theorem c10_empty_value_missing (lines : List String) (l : String)
    (hfind : findTokenLine lines = some l)
    (hempty : pyStrip (afterFirstEq l) = "") :
    load_api_key (some lines) = LoadOutcome.missingExit ∧
    ∀ s, load_api_key (some lines) ≠ LoadOutcome.token s := by
  have hmain : load_api_key (some lines) = LoadOutcome.missingExit := by
    simp only [load_api_key, hfind]
    rw [if_pos hempty]
  exact ⟨hmain, fun s h => by rw [hmain] at h; exact absurd h (by simp)⟩

/-- C10 (witness): a file whose only line is `LOGFIRE_READ_TOKEN=   ` (value
all whitespace) makes the loader exit through the missing-token path. -/
theorem c10_witness :
    load_api_key (some (["LOGFIRE_READ_TOKEN=   "])) = LoadOutcome.missingExit :=
  (c10_empty_value_missing (["LOGFIRE_READ_TOKEN=   "]) ("LOGFIRE_READ_TOKEN=   ")
    rfl (by decide)).1

/-! ## Substring containment (used to state the SQL-template claims) -/

def hasSubAux (pat : List Char) : List Char → Bool
  | [] => startsAux pat []
  | c :: rest => startsAux pat (c :: rest) || hasSubAux pat rest

/-- `strContainsSub s pat` holds when `pat` occurs contiguously inside `s`
(Python's `pat in s`). -/
def strContainsSub (s pat : String) : Bool := hasSubAux pat.data s.data

theorem startsAux_self_append (pat t : List Char) : startsAux pat (pat ++ t) = true := by
  induction pat with
  | nil => rfl
  | cons a as ih => simp [startsAux, ih]

theorem hasSubAux_self (pat t : List Char) : hasSubAux pat (pat ++ t) = true := by
  cases pat with
  | nil =>
    cases t with
    | nil => rfl
    | cons c cs => simp [hasSubAux, startsAux]
  | cons a as =>
    have h := startsAux_self_append (a :: as) t
    simp only [List.cons_append] at h ⊢
    simp [hasSubAux, h]

theorem hasSubAux_extend (pat u x : List Char) (h : hasSubAux pat x = true) :
    hasSubAux pat (u ++ x) = true := by
  induction u with
  | nil => simpa
  | cons c cs ih => simp [hasSubAux, ih]

theorem hasSubAux_of_parts (pat u t : List Char) : hasSubAux pat (u ++ (pat ++ t)) = true :=
  hasSubAux_extend pat u _ (hasSubAux_self pat t)

theorem strContainsSub_intro (s pat : String) (u t : List Char)
    (h : s.data = u ++ (pat.data ++ t)) : strContainsSub s pat = true := by
  unfold strContainsSub
  rw [h]
  exact hasSubAux_of_parts pat.data u t

/-! ## SQL templates (`query_project`, lines 81-90; `list_projects`, line 77) -/

def query_endpoint : String := "https://logfire-api.pydantic.dev/v1/query"

def list_projects_sql : String := "SELECT DISTINCT service_name FROM records ORDER BY service_name"

/-- Decimal digit character (defined by cases so that facts about it reduce
by `decide`). -/
def digitChar : Nat → Char
  | 0 => '0' | 1 => '1' | 2 => '2' | 3 => '3' | 4 => '4'
  | 5 => '5' | 6 => '6' | 7 => '7' | 8 => '8' | 9 => '9'
  | _ => '*' 

def natCharsAux : Nat → Nat → List Char
  | 0, _ => []
  | f + 1, n => if n < 10 then [digitChar n] else natCharsAux f (n / 10) ++ [digitChar (n % 10)]

/-- Decimal digits of `n`, most significant first. -/
def natToChars (n : Nat) : List Char := natCharsAux (n + 1) n

/-- Models Python `str(i)` for an `int` (also used by `json.dumps` below). -/
def intChars (n : Int) : List Char :=
  if n < 0 then '-' :: natToChars n.natAbs else natToChars n.toNat

def intToString (n : Int) : String := String.mk (intChars n)

/-- Pieces of the f-string template on lines 83-89; the template is exactly
their concatenation around the interpolated `project_name` and `limit`. -/
def sqlPartA : String := "\n        SELECT start_timestamp, level, span_name, message, attributes\n        FROM records\n        WHERE service_name = '"

def sqlPartB : String := "'\n        ORDER BY start_timestamp DESC\n        LIMIT "

def sqlPartC : String := "\n    "

/-- Models the SQL text built by `query_project(project_name, limit)`:
both arguments are interpolated verbatim, with no escaping. -/
def query_project_sql (project_name : String) (limit : Int) : String :=
  sqlPartA ++ project_name ++ sqlPartB ++ intToString limit ++ sqlPartC

/-- Default arguments of `query_project` (line 81). -/
def query_project_default_project : String := "vibemachine"

def query_project_default_limit : Int := 5

/-! ## Claim C3 -/

set_option maxRecDepth 100000 in
/-- C3: for every project name `p` and limit `n`, the SQL text produced by
`query_project(p, n)` contains the literal substring `service_name = 'p'` and
the literal substring `LIMIT n`, with `p` and `n` interpolated verbatim and
unescaped; with no arguments the defaults are service `vibemachine` and limit
`5`, whose SQL contains `service_name = 'vibemachine'` and `LIMIT 5`. -/
theorem c3_query_project_sql (p : String) (n : Int) :
    strContainsSub (query_project_sql p n) ("service_name = '" ++ p ++ "'") = true ∧
    strContainsSub (query_project_sql p n) ("LIMIT " ++ intToString n) = true ∧
    query_project_default_project = "vibemachine" ∧
    query_project_default_limit = 5 ∧
    strContainsSub
      (query_project_sql query_project_default_project query_project_default_limit)
      ("service_name = 'vibemachine'") = true ∧
    strContainsSub
      (query_project_sql query_project_default_project query_project_default_limit)
      ("LIMIT 5") = true := by
  refine ⟨?_, ?_, rfl, rfl, by rfl, by rfl⟩
  · apply strContainsSub_intro _ _
      (("\n        SELECT start_timestamp, level, span_name, message, attributes\n        FROM records\n        WHERE ").data)
      ((("'\n        ORDER BY start_timestamp DESC\n        LIMIT ").data ++ (intToString n).data ++ sqlPartC.data).drop 1)
    have hA : sqlPartA.data =
        ("\n        SELECT start_timestamp, level, span_name, message, attributes\n        FROM records\n        WHERE ").data ++
        ("service_name = '").data := by rfl
    simp only [query_project_sql, String.data_append, hA]
    simp [List.append_assoc, sqlPartB]
  · apply strContainsSub_intro _ _
      (sqlPartA.data ++ p.data ++ ("'\n        ORDER BY start_timestamp DESC\n        ").data)
      (sqlPartC.data)
    have hB : sqlPartB.data =
        ("'\n        ORDER BY start_timestamp DESC\n        ").data ++ ("LIMIT ").data := by rfl
    simp only [query_project_sql, String.data_append, hB]
    simp [List.append_assoc]

/-! ## Decoded JSON values

Model of the Python objects produced by `response.json()`: JSON numbers are
modelled as integers (the script never computes with them), and decoded
objects are association lists; `json.loads` gives dictionaries with unique
keys, so first-match lookup below coincides with dict lookup. -/

inductive Json where
  | null
  | bool (b : Bool)
  | num (n : Int)
  | str (s : String)
  | arr (elems : List Json)
  | obj (fields : List (String × Json))

def concatMap {α β : Type} (f : α → List β) : List α → List β
  | [] => []
  | a :: as => f a ++ concatMap f as

/-- Lines that `print(s)` contributes to standard output: the payload split at
newline characters (`print` itself appends one final newline). -/
def splitLinesAux : List Char → List Char → List String
  | [], acc => [String.mk acc.reverse]
  | c :: cs, acc =>
    if c = '\n' then String.mk acc.reverse :: splitLinesAux cs []
    else splitLinesAux cs (c :: acc)

def printLines (s : String) : List String := splitLinesAux s.data []

def natToString (n : Nat) : String := String.mk (natToChars n)

/-! ## Python `str()` / `repr()` of decoded values (used by the f-strings) -/

def hexDigitChar : Nat → Char
  | 0 => '0' | 1 => '1' | 2 => '2' | 3 => '3' | 4 => '4'
  | 5 => '5' | 6 => '6' | 7 => '7' | 8 => '8' | 9 => '9'
  | 10 => 'a' | 11 => 'b' | 12 => 'c' | 13 => 'd' | 14 => 'e' | 15 => 'f'
  | _ => '*' 

/-- Escaping used by Python `repr` on one character of a string, `q` being the
chosen quote character.  Non-printable characters beyond ASCII are not
specially modelled (the script never constructs them). -/
def pyReprEscChar (q : Char) (c : Char) : List Char :=
  if c = q ∨ c = '\\' then ['\\', c]
  else if c = '\n' then ['\\', 'n']
  else if c = '\r' then ['\\', 'r']
  else if c = '\t' then ['\\', 't']
  else if c.toNat < 32 ∨ c.toNat = 127 then
    ['\\', 'x', hexDigitChar (c.toNat / 16), hexDigitChar (c.toNat % 16)]
  else [c]

/-- Models Python `repr` of a string: single quotes, switching to double
quotes when the text contains a single quote but no double quote. -/
def pyReprStrChars (s : String) : List Char :=
  if s.data.contains '\'' && !(s.data.contains '"') then
    '"' :: concatMap (pyReprEscChar '"') s.data ++ ['"']
  else
    '\'' :: concatMap (pyReprEscChar '\'') s.data ++ ['\'']

mutual
/-- Models Python `repr` of a decoded JSON value. -/
def pyReprChars : Json → List Char
  | .null => ['N', 'o', 'n', 'e']
  | .bool b => if b then ['T', 'r', 'u', 'e'] else ['F', 'a', 'l', 's', 'e']
  | .num n => intChars n
  | .str s => pyReprStrChars s
  | .arr xs => '[' :: pyReprList xs ++ [']']
  | .obj fs => '{' :: pyReprFields fs ++ ['}']

def pyReprList : List Json → List Char
  | [] => []
  | [x] => pyReprChars x
  | x :: y :: rest => pyReprChars x ++ ',' :: ' ' :: pyReprList (y :: rest)

def pyReprFields : List (String × Json) → List Char
  | [] => []
  | [(k, v)] => pyReprStrChars k ++ ':' :: ' ' :: pyReprChars v
  | (k, v) :: f :: rest =>
    pyReprStrChars k ++ ':' :: ' ' :: pyReprChars v ++ ',' :: ' ' :: pyReprFields (f :: rest)
end

/-- Models Python `str(v)` as used by the f-strings `f"\n{col['name']}:"` and
`f"  {value}"`: a string prints raw, everything else prints as its repr. -/
def pyStr : Json → String
  | .str s => s
  | v => String.mk (pyReprChars v)

/-! ## Python dictionary / iteration semantics needed by the renderer -/

def objLookup : List (String × Json) → String → Option Json
  | [], _ => none
  | (k, v) :: fs, key => if k = key then some v else objLookup fs key

/-- Models Python `key in v` for a decoded value `v` (a `TypeError` for the
non-container cases, carrying `str(e)`). -/
def pyIn (key : String) : Json → Except String Bool
  | .obj fs => .ok (objLookup fs key).isSome
  | .arr xs => .ok (xs.any (fun j => match j with | .str t => t == key | _ => false))
  | .str s => .ok (hasSubAux key.data s.data)
  | .num _ => .error ("argument of type 'int' is not iterable")
  | .bool _ => .error ("argument of type 'bool' is not iterable")
  | .null => .error ("argument of type 'NoneType' is not iterable")

/-- Models Python `v[key]` for a string key.  A missing dictionary key raises
`KeyError(key)`, whose `str()` is the repr of the key, e.g. `'name'`. -/
def pySubscript (v : Json) (key : String) : Except String Json :=
  match v with
  | .obj fs =>
    match objLookup fs key with
    | some x => .ok x
    | none => .error (String.mk (pyReprStrChars key))
  | .arr _ => .error ("list indices must be integers or slices, not str")
  | .str _ => .error ("string indices must be integers")
  | .num _ => .error ("'int' object is not subscriptable")
  | .bool _ => .error ("'bool' object is not subscriptable")
  | .null => .error ("'NoneType' object is not subscriptable")

/-- Models Python `for x in v`: lists yield elements, dictionaries their keys,
strings their characters; anything else raises `TypeError`. -/
def pyIterate : Json → Except String (List Json)
  | .arr xs => .ok xs
  | .obj fs => .ok (fs.map (fun f => Json.str f.1))
  | .str s => .ok (s.data.map (fun c => Json.str (String.mk [c])))
  | .num _ => .error ("'int' object is not iterable")
  | .bool _ => .error ("'bool' object is not iterable")
  | .null => .error ("'NoneType' object is not iterable")

/-! ## Result renderer (`run_query` lines 54-63, the `show_full=False` path) -/

def dash80 : String := String.mk (List.replicate 80 '-')

/-- The column loop of lines 59-62.  Produces the printed lines and, when one
of `col['name']`, `col['values']` or the iteration raises, the exception
message: the header of the failing column is printed only if `col['name']`
succeeded, the remaining columns are skipped, and the exception propagates to
the `except` of `run_query`. -/
def renderCols : List Json → List String × Option String
  | [] => ([], none)
  | col :: rest =>
    match pySubscript col ("name") with
    | .error e => ([], some e)
    | .ok nameVal =>
      match pySubscript col ("values") with
      | .error e => (printLines ("\n" ++ pyStr nameVal ++ ":"), some e)
      | .ok vsVal =>
        match pyIterate vsVal with
        | .error e => (printLines ("\n" ++ pyStr nameVal ++ ":"), some e)
        | .ok vs =>
          match renderCols rest with
          | (ls, err) =>
            (printLines ("\n" ++ pyStr nameVal ++ ":") ++
              concatMap (fun v => printLines ("  " ++ pyStr v)) vs ++ ls, err)

/-- Lines 56-63: print `Results:`, a dash line, then — when `"columns" in
data` — the column loop, and a closing dash line only if nothing raised.
The second component is the exception propagating out of the block, if any. -/
def render_columns (data : Json) : List String × Option String :=
  match pyIn ("columns") data with
  | .error e => ([("Results:" : String), dash80], some e)
  | .ok false => ([("Results:" : String), dash80, dash80], none)
  | .ok true =>
    match pySubscript data ("columns") with
    | .error e => ([("Results:" : String), dash80], some e)
    | .ok colsVal =>
      match pyIterate colsVal with
      | .error e => ([("Results:" : String), dash80], some e)
      | .ok cols =>
        match renderCols cols with
        | (ls, none) => ([("Results:" : String), dash80] ++ ls ++ [dash80], none)
        | (ls, some e) => ([("Results:" : String), dash80] ++ ls, some e)

/-! ## `json.dumps(data, indent=2)` -/

def spacesL (n : Nat) : List Char := List.replicate n ' '

def hex4 (n : Nat) : List Char :=
  [hexDigitChar (n / 4096 % 16), hexDigitChar (n / 256 % 16),
   hexDigitChar (n / 16 % 16), hexDigitChar (n % 16)]

/-- Escaping of one character by `json.dumps` (default `ensure_ascii=True`):
short escapes for the two delimiters and the common controls, `\uXXXX` for
every other character outside printable ASCII, with a surrogate pair for
characters beyond the basic multilingual plane. -/
def escapeChar (c : Char) : List Char :=
  if c = '"' then ['\\', '"']
  else if c = '\\' then ['\\', '\\']
  else if c = '\x08' then ['\\', 'b']
  else if c = '\x0c' then ['\\', 'f']
  else if c = '\n' then ['\\', 'n']
  else if c = '\r' then ['\\', 'r']
  else if c = '\t' then ['\\', 't']
  else if 32 ≤ c.toNat ∧ c.toNat ≤ 126 then [c]
  else if c.toNat < 65536 then '\\' :: 'u' :: hex4 c.toNat
  else
    '\\' :: 'u' :: hex4 (55296 + (c.toNat - 65536) / 1024) ++
      '\\' :: 'u' :: hex4 (56320 + (c.toNat - 65536) % 1024)

def escStr (s : String) : List Char := '"' :: concatMap escapeChar s.data ++ ['"']

mutual
/-- Text of `json.dumps(v, indent=2)` at indentation level `k`: containers
open on their own line, members are indented `k+2` spaces and separated by
`","` plus a newline, and the closing bracket returns to column `k`. -/
def dumpsV (k : Nat) : Json → List Char
  | .null => ['n', 'u', 'l', 'l']
  | .bool b => if b then ['t', 'r', 'u', 'e'] else ['f', 'a', 'l', 's', 'e']
  | .num n => intChars n
  | .str s => escStr s
  | .arr xs =>
    match xs with
    | [] => ['[', ']']
    | x :: rest =>
      '[' :: '\n' :: (spacesL (k + 2) ++ dumpsV (k + 2) x ++ dumpsArrTail (k + 2) rest ++
        '\n' :: (spacesL k ++ [']']))
  | .obj fs =>
    match fs with
    | [] => ['{', '}']
    | (key, v) :: rest =>
      '{' :: '\n' :: (spacesL (k + 2) ++ escStr key ++ ':' :: ' ' :: dumpsV (k + 2) v ++
        dumpsObjTail (k + 2) rest ++ '\n' :: (spacesL k ++ ['}']))

def dumpsArrTail (k : Nat) : List Json → List Char
  | [] => []
  | x :: xs => ',' :: '\n' :: (spacesL k ++ dumpsV k x ++ dumpsArrTail k xs)

def dumpsObjTail (k : Nat) : List (String × Json) → List Char
  | [] => []
  | (key, v) :: fs =>
    ',' :: '\n' :: (spacesL k ++ escStr key ++ ':' :: ' ' :: dumpsV k v ++ dumpsObjTail k fs)
end

/-- Models `json.dumps(data, indent=2)` (line 53). -/
def json_dumps (v : Json) : String := String.mk (dumpsV 0 v)

/-! ## Query executor (`run_query`, lines 28-72) -/

/-- One HTTP exchange as `run_query` observes it: either a response carrying
the status code, the outcome of `.json()` decoding (an exception message when
the body is malformed) and the raw `.text`, or a raised transport exception
(timeout, connection error), carrying `str(e)`. -/
inductive HttpResult where
  | response (status : Nat) (jres : Except String Json) (text : String)
  | transportError (msg : String)

/-- How the script leaves a code path: a normal return, `exit(code)`, or an
exception that nothing catches (the process dies with a traceback). -/
inductive Termination where
  | normal
  | exited (code : Nat)
  | uncaught (msg : String)
deriving DecidableEq

/-- Everything observable about one `run_query` call: printed lines, the
returned value (`none` models Python `None`), how control leaves, and how
many times `requests.get` ran. -/
structure RunRes where
  output : List String
  data : Option Json
  term : Termination
  calls : Nat

def fileOpenErrMsg : String := "[Errno 2] No such file or directory: '.env_DIS'"

/-- Lines printed by lines 43-44 before the request. -/
def rqPre (sql_query : String) : List String :=
  printLines ("Querying: " ++ query_endpoint) ++ printLines ("SQL: " ++ sql_query ++ "\n")

/-- Models `run_query(sql_query, show_full)` (lines 28-72).  `load_api_key`
runs on line 29 *before* the `try`, so its failures escape `run_query`; the
`try` of lines 46-72 wraps the single `requests.get`, the `.json()` decode,
and both render paths, and its bare `except Exception` turns any of their
exceptions into an `Error: {e}` line and a `None` return.  `requests.get`
appears exactly once and in no loop, so a call issues at most one request. -/
def run_query (credFile : Option (List String)) (sql_query : String) (show_full : Bool)
    (http : HttpResult) : RunRes :=
  match load_api_key credFile with
  | .fileError => ⟨[], none, .uncaught fileOpenErrMsg, 0⟩
  | .missingExit => ⟨[missingTokenMsg], none, .exited 1, 0⟩
  | .token _ =>
    match http with
    | .transportError msg =>
      ⟨rqPre sql_query ++ printLines ("Error: " ++ msg), none, .normal, 1⟩
    | .response status jres text =>
      if status = 200 then
        match jres with
        | .error msg => ⟨rqPre sql_query ++ printLines ("Error: " ++ msg), none, .normal, 1⟩
        | .ok data =>
          if show_full then
            ⟨rqPre sql_query ++ printLines (json_dumps data), some data, .normal, 1⟩
          else
            match render_columns data with
            | (ls, none) => ⟨rqPre sql_query ++ ls, some data, .normal, 1⟩
            | (ls, some e) =>
              ⟨rqPre sql_query ++ ls ++ printLines ("Error: " ++ e), none, .normal, 1⟩
      else
        ⟨rqPre sql_query ++ printLines ("Error: Status " ++ natToString status) ++
          printLines text, none, .normal, 1⟩

/-! ## Claim C4 -/

/-- C4: once the credential is loaded, `run_query` never raises to its caller.
For every response with a non-200 status it prints `Error: Status {code}` and
the raw response body and returns `None`; for every transport exception it
prints `Error: {message}` and returns `None`; and on every input it returns
normally having issued exactly one HTTP request (no retry). -/
theorem c4_run_query_no_raise (credFile : Option (List String)) (k sql : String)
    (full : Bool) (hload : load_api_key credFile = LoadOutcome.token k) :
    (∀ status jres text, status ≠ 200 →
      run_query credFile sql full (.response status jres text) =
        ⟨rqPre sql ++ printLines ("Error: Status " ++ natToString status) ++ printLines text,
         none, .normal, 1⟩) ∧
    (∀ msg, run_query credFile sql full (.transportError msg) =
        ⟨rqPre sql ++ printLines ("Error: " ++ msg), none, .normal, 1⟩) ∧
    (∀ http, (run_query credFile sql full http).calls = 1 ∧
      (run_query credFile sql full http).term = Termination.normal) := by
  refine ⟨?_, ?_, ?_⟩
  · intro status jres text hs
    simp only [run_query, hload]
    rw [if_neg hs]
  · intro msg
    simp only [run_query, hload]
  · intro http
    cases http with
    | transportError msg => simp [run_query, hload]
    | response status jres text =>
      simp only [run_query, hload]
      by_cases hs : status = 200
      · rw [if_pos hs]
        cases jres with
        | error msg => exact ⟨rfl, rfl⟩
        | ok data =>
          cases full with
          | true => exact ⟨rfl, rfl⟩
          | false =>
            simp only [Bool.false_eq_true, if_false]
            rcases hrc : render_columns data with ⟨ls, err⟩
            cases err with
            | none => exact ⟨rfl, rfl⟩
            | some e => exact ⟨rfl, rfl⟩
      · rw [if_neg hs]
        exact ⟨rfl, rfl⟩

/-- C4 (witness): a 500 response with body `server error` is reported with its
status and raw body, yields no data, and costs exactly one request. -/
theorem c4_witness :
    run_query (some (["LOGFIRE_READ_TOKEN=k"])) ("q") false
      (.response 500 (.ok Json.null) ("server error")) =
      ⟨rqPre ("q") ++ printLines ("Error: Status " ++ natToString 500) ++
        printLines ("server error"), none, .normal, 1⟩ :=
  (c4_run_query_no_raise (some (["LOGFIRE_READ_TOKEN=k"])) ("k") ("q") false rfl).1
    500 (.ok Json.null) ("server error") (by decide)

/-! ## Claim C5 -/

/-- C5 (counterexample): the claim says rendering completes without failure on
*any* decoded 200 body.  For the body `{"columns": [{}]}` (one column entry
lacking `name`), `col['name']` raises `KeyError('name')`: the table is cut off
after its header lines (no closing dash line), the exception reaches the
`except` of `run_query`, `Error: 'name'` is printed, and the call returns
`None` instead of the data — rendering did not complete without failure. -/
theorem c5_counterexample :
    (render_columns (Json.obj [(("columns" : String), Json.arr [Json.obj []])])).2 =
      some ("'name'") ∧
    run_query (some (["LOGFIRE_READ_TOKEN=k"])) ("q") false
      (.response 200 (.ok (Json.obj [(("columns" : String), Json.arr [Json.obj []])])) ("")) =
      ⟨rqPre ("q") ++ [("Results:" : String), dash80] ++ [("Error: 'name'" : String)],
       none, .normal, 1⟩ :=
  ⟨rfl, rfl⟩

/-- C5 (amended): with `showFull=false` the process never crashes on an
unexpected body shape, but not because the renderer completes: when
`"columns" in data` is false the table is printed as header and footer
delimiters only and the data is returned; when any step of rendering raises
(missing `name`/`values`, non-subscriptable or non-iterable shapes), the
exception is caught by `run_query`'s `except`, the partial table stays as
printed, `Error: {e}` is printed, and the call returns a failure outcome
(`None`) — the rest of the table, including the closing delimiter, is
skipped. -/
theorem c5_render_errors_caught (credFile : Option (List String)) (k sql text : String)
    (data : Json) (hload : load_api_key credFile = LoadOutcome.token k) :
    (pyIn ("columns") data = .ok false →
      run_query credFile sql false (.response 200 (.ok data) text) =
        ⟨rqPre sql ++ [("Results:" : String), dash80, dash80], some data, .normal, 1⟩) ∧
    (∀ ls e, render_columns data = (ls, some e) →
      run_query credFile sql false (.response 200 (.ok data) text) =
        ⟨rqPre sql ++ ls ++ printLines ("Error: " ++ e), none, .normal, 1⟩) ∧
    (∀ ls, render_columns data = (ls, none) →
      run_query credFile sql false (.response 200 (.ok data) text) =
        ⟨rqPre sql ++ ls, some data, .normal, 1⟩) := by
  refine ⟨?_, ?_, ?_⟩
  · intro h
    have hrc : render_columns data =
        ([("Results:" : String), dash80, dash80], (none : Option String)) := by
      simp only [render_columns, h]
    simp [run_query, hload, hrc]
  · intro ls e hrc
    simp [run_query, hload, hrc]
  · intro ls hrc
    simp [run_query, hload, hrc]

/-- C5 (witness): a dictionary body with no `columns` key renders as the bare
header/footer delimiters and the data is still returned. -/
theorem c5_witness :
    run_query (some (["LOGFIRE_READ_TOKEN=k"])) ("q") false
      (.response 200 (.ok (Json.obj [])) ("")) =
      ⟨rqPre ("q") ++ [("Results:" : String), dash80, dash80],
       some (Json.obj []), .normal, 1⟩ :=
  (c5_render_errors_caught (some (["LOGFIRE_READ_TOKEN=k"])) ("k") ("q") ("")
    (Json.obj []) rfl).1 rfl

/-! ## Claim C6 -/

/-- Canonical well-formed column object, `{"name": nm, "values": [...]}`. -/
def colJson (p : String × List Json) : Json :=
  Json.obj [(("name" : String), Json.str p.1), (("values" : String), Json.arr p.2)]

/-- Lines the renderer prints for one well-formed column: a blank line, the
column name with a trailing colon, then each value indented two spaces on its
own line. -/
def colOutLines (p : String × List Json) : List String :=
  printLines ("\n" ++ p.1 ++ ":") ++ concatMap (fun v => printLines ("  " ++ pyStr v)) p.2

theorem renderCols_wellformed (cols : List (String × List Json)) :
    renderCols (cols.map colJson) = (concatMap colOutLines cols, none) := by
  induction cols with
  | nil => rfl
  | cons p rest ih =>
    have step : renderCols (List.map colJson (p :: rest)) =
        (printLines ("\n" ++ p.1 ++ ":") ++
          concatMap (fun v => printLines ("  " ++ pyStr v)) p.2 ++
          concatMap colOutLines rest, none) := by
      simp only [List.map_cons, renderCols, colJson, pySubscript, objLookup, pyStr,
        pyIterate, ih]
      simp
    rw [step]
    simp [colOutLines, concatMap, List.append_assoc]

/-- C6: for a 200 body of the shape `{"columns": [...]}` where every column
is a well-formed `{"name": ..., "values": [...]}` object, the rendered output
is exactly: the query preamble, `Results:`, a dash line, then for each column
in order a blank line, `name:`, and each value indented two spaces on its own
line, and a closing dash line; the decoded data is returned. -/
theorem c6_column_rendering (credFile : Option (List String)) (k sql text : String)
    (cols : List (String × List Json)) (hload : load_api_key credFile = LoadOutcome.token k) :
    run_query credFile sql false
      (.response 200 (.ok (Json.obj [(("columns" : String), Json.arr (cols.map colJson))])) text) =
      ⟨rqPre sql ++ [("Results:" : String), dash80] ++ concatMap colOutLines cols ++ [dash80],
       some (Json.obj [(("columns" : String), Json.arr (cols.map colJson))]), .normal, 1⟩ := by
  have hrc : render_columns (Json.obj [(("columns" : String), Json.arr (cols.map colJson))]) =
      ([("Results:" : String), dash80] ++ concatMap colOutLines cols ++ [dash80],
       (none : Option String)) := by
    simp [render_columns, pyIn, objLookup, pySubscript, pyIterate]
    rw [renderCols_wellformed]
  simp [run_query, hload, hrc]

/-- C6 (witness): the body
`{"columns": [{"name": "level", "values": ["info", "error"]}]}` renders as the
line `level:` followed by `  info` and `  error`, in that order, between the
table delimiters. -/
theorem c6_witness :
    run_query (some (["LOGFIRE_READ_TOKEN=k"])) ("q") false
      (.response 200
        (.ok (Json.obj [(("columns" : String),
          Json.arr [Json.obj [(("name" : String), Json.str ("level")),
            (("values" : String), Json.arr [Json.str ("info"), Json.str ("error")])]])]))
        ("")) =
      ⟨rqPre ("q") ++ [("Results:" : String), dash80] ++
          [("" : String), ("level:" : String), ("  info" : String), ("  error" : String)] ++
          [dash80],
       some (Json.obj [(("columns" : String),
          Json.arr [Json.obj [(("name" : String), Json.str ("level")),
            (("values" : String), Json.arr [Json.str ("info"), Json.str ("error")])]])]),
       .normal, 1⟩ :=
  c6_column_rendering (some (["LOGFIRE_READ_TOKEN=k"])) ("k") ("q") ("")
    ([(("level" : String), [Json.str ("info"), Json.str ("error")])]) rfl

/-! ## Command dispatcher (`main`, lines 98-139) -/

def pyIntDigitsGo : List Char → Nat → Option Nat
  | [], acc => some acc
  | c :: cs, acc =>
    if c.isDigit then pyIntDigitsGo cs (acc * 10 + (c.toNat - 48))
    else if c = '_' then
      match cs with
      | d :: ds => if d.isDigit then pyIntDigitsGo ds (acc * 10 + (d.toNat - 48)) else none
      | [] => none
    else none

def pyIntDigits : List Char → Option Nat
  | [] => none
  | c :: cs => if c.isDigit then pyIntDigitsGo cs (c.toNat - 48) else none

/-- Models Python `int(s)` in base 10: surrounding whitespace ignored, an
optional sign, then decimal digits with single underscores allowed between
them; anything else raises `ValueError` (modelled as `none`). -/
def pyInt? (s : String) : Option Int :=
  match (pyStrip s).data with
  | '+' :: rest => (pyIntDigits rest).map (fun n => (n : Int))
  | '-' :: rest => (pyIntDigits rest).map (fun n => -(n : Int))
  | l => (pyIntDigits l).map (fun n => (n : Int))

/-- Message of the `ValueError` raised by `int()` on a bad literal. -/
def intParseErrMsg (s : String) : String :=
  "invalid literal for int() with base 10: " ++ String.mk (pyReprStrChars s)

/-- Everything observable about one run of `main`: printed lines, how the
process terminates, and how many HTTP requests were issued. -/
structure MainRes where
  output : List String
  term : Termination
  calls : Nat

def usageText : String := "\nLogfire Query Tool\n==================\n\nUsage:\n  python3 logfire_query.py [command] [options]\n\nCommands:\n  list-projects              List all Logfire projects\n  query [project] [limit]    Query logs from project (default: vibemachine, 5)\n  sql \"SELECT ...\"           Run custom SQL query\n\nExamples:\n  python3 logfire_query.py list-projects\n  python3 logfire_query.py query vibemachine 10\n  python3 logfire_query.py sql \"SELECT * FROM records LIMIT 5\"\n        "

def sqlHintLine : String := "Example: python3 logfire_query.py sql \"SELECT * FROM records LIMIT 5\""

def listProjectsHeader : List String := printLines ("=== Listing all Logfire projects ===\n")

def queryHeader (p : String) (n : Int) : List String :=
  printLines ("=== Last " ++ intToString n ++ " logs from '" ++ p ++ "' ===\n")

def customHeader : List String := printLines ("=== Custom Query ===\n")

/-- Models `main()` (lines 98-139) plus the three command helpers it calls
(`list_projects` line 75, `query_project` line 81, `custom_query` line 93).
`argv` is the full `sys.argv`, program name included.  `int(sys.argv[3])` on
line 126 runs before anything of the query is printed or sent, so a
non-numeric limit dies with an uncaught `ValueError` after zero requests. -/
def mainRun (argv : List String) (credFile : Option (List String)) (http : HttpResult) :
    MainRes :=
  if argv.length < 2 then ⟨printLines usageText, .normal, 0⟩
  else
    let command := argv.getD 1 ""
    if command = "list-projects" then
      let r := run_query credFile list_projects_sql false http
      ⟨listProjectsHeader ++ r.output, r.term, r.calls⟩
    else if command = "query" then
      let project := if argv.length > 2 then argv.getD 2 "" else "vibemachine"
      if argv.length > 3 then
        match pyInt? (argv.getD 3 "") with
        | none =>
          ⟨[], .uncaught ("ValueError: " ++ intParseErrMsg (argv.getD 3 "")), 0⟩
        | some n =>
          let r := run_query credFile (query_project_sql project n) false http
          ⟨queryHeader project n ++ r.output, r.term, r.calls⟩
      else
        let r := run_query credFile (query_project_sql project 5) false http
        ⟨queryHeader project 5 ++ r.output, r.term, r.calls⟩
    else if command = "sql" then
      if argv.length < 3 then
        ⟨[("Error: SQL query required" : String), sqlHintLine], .normal, 0⟩
      else
        let r := run_query credFile (argv.getD 2 "") true http
        ⟨customHeader ++ r.output, r.term, r.calls⟩
    else
      ⟨[("Unknown command: " ++ command), ("Run without arguments to see usage")], .normal, 0⟩

/-! ## Claim C8 -/

/-- C8: a `query` invocation whose limit argument is not parseable as an
integer dies before doing anything: the `ValueError` from `int()` is
unhandled, the process terminates abnormally with a stack-style diagnostic,
nothing is printed by the script itself, and zero HTTP requests are made. -/
theorem c8_bad_limit_fatal (prog p s : String) (credFile : Option (List String))
    (http : HttpResult) (h : pyInt? s = none) :
    mainRun [prog, "query", p, s] credFile http =
      ⟨[], .uncaught ("ValueError: " ++ intParseErrMsg s), 0⟩ := by
  simp [mainRun, h]

/-- C8 (witness): `query vibemachine abc` dies with the `ValueError` and
performs no request. -/
theorem c8_witness :
    mainRun (["logfire_query.py", "query", "vibemachine", "abc"]) none
      (.transportError ("")) =
      ⟨[], .uncaught ("ValueError: " ++ intParseErrMsg ("abc")), 0⟩ :=
  c8_bad_limit_fatal ("logfire_query.py") ("vibemachine") ("abc") none
    (.transportError ("")) rfl

/-! ## Claim C9 -/

/-- C9: every argument vector that names no executable operation — no
arguments at all, an unrecognized first command, or `sql` without a query
text — prints the corresponding usage, hint, or unknown-command text,
performs zero HTTP requests, and returns normally (exit status 0). -/
theorem c9_no_op_paths (credFile : Option (List String)) (http : HttpResult) :
    (∀ prog, mainRun [prog] credFile http = ⟨printLines usageText, .normal, 0⟩) ∧
    mainRun [] credFile http = ⟨printLines usageText, .normal, 0⟩ ∧
    (∀ prog cmd rest, cmd ≠ "list-projects" → cmd ≠ "query" → cmd ≠ "sql" →
      mainRun (prog :: cmd :: rest) credFile http =
        ⟨[("Unknown command: " ++ cmd), ("Run without arguments to see usage")],
         .normal, 0⟩) ∧
    (∀ prog, mainRun [prog, "sql"] credFile http =
      ⟨[("Error: SQL query required" : String), sqlHintLine], .normal, 0⟩) := by
  refine ⟨fun prog => by simp [mainRun], by simp [mainRun], ?_, fun prog => by simp [mainRun]⟩
  intro prog cmd rest h1 h2 h3
  simp only [mainRun]
  rw [if_neg (by simp)]
  simp [h1, h2, h3]

/-- C9 (witness): an unrecognized command, a bare `sql`, and a bare
invocation each print their message and make zero requests. -/
theorem c9_witness :
    mainRun (["logfire_query.py", "frobnicate"]) none (.transportError ("")) =
      ⟨[("Unknown command: frobnicate" : String),
        ("Run without arguments to see usage" : String)], .normal, 0⟩ ∧
    mainRun (["logfire_query.py", "sql"]) none (.transportError ("")) =
      ⟨[("Error: SQL query required" : String), sqlHintLine], .normal, 0⟩ ∧
    mainRun (["logfire_query.py"]) none (.transportError ("")) =
      ⟨printLines usageText, .normal, 0⟩ :=
  ⟨(c9_no_op_paths none (.transportError (""))).2.2.1 ("logfire_query.py") ("frobnicate")
      [] (by decide) (by decide) (by decide),
   (c9_no_op_paths none (.transportError (""))).2.2.2 ("logfire_query.py"),
   (c9_no_op_paths none (.transportError (""))).1 ("logfire_query.py")⟩

/-! ## `json.loads`: a recursive-descent parser for the text `json_dumps`
prints.  All recursion is structural — the mutually recursive part descends on
an explicit fuel, one unit per grammar production — so that the parser
evaluates by `rfl` on concrete inputs.  Only the fragment of JSON that
`json.dumps` emits is modelled (in particular numbers are the optionally
signed integer numerals the printer writes). -/

def isJsonWsChar (c : Char) : Bool := c = ' ' || c = '\t' || c = '\n' || c = '\r'

def skipWs : List Char → List Char
  | [] => []
  | c :: cs => if isJsonWsChar c then skipWs cs else c :: cs

def isDigitCh (c : Char) : Bool := decide (48 ≤ c.toNat) && decide (c.toNat ≤ 57)

def expectChars : List Char → List Char → Option (List Char)
  | [], s => some s
  | c :: cs, d :: ds => if d = c then expectChars cs ds else none
  | _ :: _, [] => none

def hexVal? (c : Char) : Option Nat :=
  if 48 ≤ c.toNat ∧ c.toNat ≤ 57 then some (c.toNat - 48)
  else if 97 ≤ c.toNat ∧ c.toNat ≤ 102 then some (c.toNat - 87)
  else if 65 ≤ c.toNat ∧ c.toNat ≤ 70 then some (c.toNat - 55)
  else none

/-- Table of the two-character escapes `\" \\ \/ \b \f \n \r \t`. -/
def shortEscape? (e : Char) : Option Char :=
  if e = '"' then some '"'
  else if e = '\\' then some '\\'
  else if e = '/' then some '/'
  else if e = 'b' then some '\x08'
  else if e = 'f' then some '\x0c'
  else if e = 'n' then some '\n'
  else if e = 'r' then some '\r'
  else if e = 't' then some '\t'
  else none

/-- Body of a JSON string after the opening quote: literal characters, short
escapes, `\uXXXX`, and surrogate pairs.  Each recursive call costs one unit
of fuel, so `fuel` larger than the number of decoded characters suffices. -/
def parseStringBody (fuel : Nat) (s : List Char) : Option (List Char × List Char) :=
  match fuel with
  | 0 => none
  | fuel + 1 =>
    match s with
    | [] => none
    | c :: rest =>
      if c = '"' then some ([], rest)
      else if c = '\\' then
        match rest with
        | [] => none
        | e :: rest2 =>
          if e = 'u' then
            match rest2 with
            | h1 :: h2 :: h3 :: h4 :: rest3 =>
              match hexVal? h1, hexVal? h2, hexVal? h3, hexVal? h4 with
              | some a, some b, some c2, some d =>
                let n := ((a * 16 + b) * 16 + c2) * 16 + d
                if 55296 ≤ n ∧ n ≤ 56319 then
                  match rest3 with
                  | '\\' :: 'u' :: g1 :: g2 :: g3 :: g4 :: rest4 =>
                    match hexVal? g1, hexVal? g2, hexVal? g3, hexVal? g4 with
                    | some a2, some b2, some c3, some d2 =>
                      let m := ((a2 * 16 + b2) * 16 + c3) * 16 + d2
                      if 56320 ≤ m ∧ m ≤ 57343 then
                        match parseStringBody fuel rest4 with
                        | some (cs, r) =>
                          some (Char.ofNat (65536 + (n - 55296) * 1024 + (m - 56320)) :: cs, r)
                        | none => none
                      else none
                    | _, _, _, _ => none
                  | _ => none
                else if 56320 ≤ n ∧ n ≤ 57343 then none
                else
                  match parseStringBody fuel rest3 with
                  | some (cs, r) => some (Char.ofNat n :: cs, r)
                  | none => none
              | _, _, _, _ => none
            | _ => none
          else
            match shortEscape? e with
            | some d =>
              match parseStringBody fuel rest2 with
              | some (cs, r) => some (d :: cs, r)
              | none => none
            | none => none
      else
        match parseStringBody fuel rest with
        | some (cs, r) => some (c :: cs, r)
        | none => none

def takeDigits : List Char → List Char × List Char
  | [] => ([], [])
  | c :: cs =>
    if isDigitCh c then
      match takeDigits cs with
      | (ds, r) => (c :: ds, r)
    else ([], c :: cs)

def digitsToNatGo : List Char → Nat → Nat
  | [], acc => acc
  | c :: cs, acc => digitsToNatGo cs (acc * 10 + (c.toNat - 48))

/-- An unsigned decimal numeral: one or more digits, taken greedily. -/
def parseNatNum (s : List Char) : Option (Nat × List Char) :=
  match takeDigits s with
  | ([], _) => none
  | (ds, r) => some (digitsToNatGo ds 0, r)

mutual
def parseValue (fuel : Nat) (s : List Char) : Option (Json × List Char) :=
  match fuel with
  | 0 => none
  | fuel + 1 =>
    match skipWs s with
    | [] => none
    | c :: rest =>
      if c = 'n' then
        match expectChars ['u', 'l', 'l'] rest with
        | some r => some (.null, r)
        | none => none
      else if c = 't' then
        match expectChars ['r', 'u', 'e'] rest with
        | some r => some (.bool true, r)
        | none => none
      else if c = 'f' then
        match expectChars ['a', 'l', 's', 'e'] rest with
        | some r => some (.bool false, r)
        | none => none
      else if c = '"' then
        match parseStringBody (rest.length + 1) rest with
        | some (cs, r) => some (.str (String.mk cs), r)
        | none => none
      else if c = '[' then
        match skipWs rest with
        | [] => none
        | d :: r2 =>
          if d = ']' then some (.arr [], r2)
          else
            match parseValue fuel (d :: r2) with
            | some (v, r3) =>
              match parseArrTail fuel r3 with
              | some (vs, r4) => some (.arr (v :: vs), r4)
              | none => none
            | none => none
      else if c = '{' then
        match skipWs rest with
        | [] => none
        | d :: r2 =>
          if d = '}' then some (.obj [], r2)
          else
            match parseMember fuel (d :: r2) with
            | some (kv, r3) =>
              match parseObjTail fuel r3 with
              | some (fs, r4) => some (.obj (kv :: fs), r4)
              | none => none
            | none => none
      else if c = '-' then
        match parseNatNum rest with
        | some (m, r) => some (.num (-(m : Int)), r)
        | none => none
      else if isDigitCh c then
        match parseNatNum (c :: rest) with
        | some (m, r) => some (.num ((m : Int)), r)
        | none => none
      else none

def parseArrTail (fuel : Nat) (s : List Char) : Option (List Json × List Char) :=
  match fuel with
  | 0 => none
  | fuel + 1 =>
    match skipWs s with
    | [] => none
    | c :: rest =>
      if c = ']' then some ([], rest)
      else if c = ',' then
        match parseValue fuel rest with
        | some (v, r2) =>
          match parseArrTail fuel r2 with
          | some (vs, r3) => some (v :: vs, r3)
          | none => none
        | none => none
      else none

def parseMember (fuel : Nat) (s : List Char) : Option ((String × Json) × List Char) :=
  match fuel with
  | 0 => none
  | fuel + 1 =>
    match skipWs s with
    | [] => none
    | c :: rest =>
      if c = '"' then
        match parseStringBody (rest.length + 1) rest with
        | some (cs, r2) =>
          match skipWs r2 with
          | [] => none
          | d :: r3 =>
            if d = ':' then
              match parseValue fuel r3 with
              | some (v, r4) => some ((String.mk cs, v), r4)
              | none => none
            else none
        | none => none
      else none

def parseObjTail (fuel : Nat) (s : List Char) : Option (List (String × Json) × List Char) :=
  match fuel with
  | 0 => none
  | fuel + 1 =>
    match skipWs s with
    | [] => none
    | c :: rest =>
      if c = '}' then some ([], rest)
      else if c = ',' then
        match parseMember fuel rest with
        | some (kv, r2) =>
          match parseObjTail fuel r2 with
          | some (fs, r3) => some (kv :: fs, r3)
          | none => none
        | none => none
      else none
end

/-- Models `json.loads` on the documents `json_dumps` emits: parse one value,
allow trailing whitespace, reject trailing garbage. -/
def json_loads (s : String) : Option Json :=
  match parseValue (s.data.length + 1) s.data with
  | some (v, rest) => if skipWs rest = [] then some v else none
  | none => none

/-! ## Round-trip helper lemmas: sizes, whitespace, numerals -/

mutual
def sizeJ : Json → Nat
  | .null => 1
  | .bool _ => 1
  | .num _ => 1
  | .str _ => 1
  | .arr xs => sizeArrJ xs + 1
  | .obj fs => sizeObjJ fs + 1

def sizeArrJ : List Json → Nat
  | [] => 0
  | x :: xs => sizeJ x + sizeArrJ xs + 1

def sizeObjJ : List (String × Json) → Nat
  | [] => 0
  | (_, v) :: fs => sizeJ v + sizeObjJ fs + 2
end

def wsOnly (l : List Char) : Bool := l.all isJsonWsChar

def headNotDigit : List Char → Bool
  | [] => true
  | c :: _ => !(isDigitCh c)

theorem skipWs_ws_append (w l : List Char) (hw : wsOnly w = true) :
    skipWs (w ++ l) = skipWs l := by
  induction w with
  | nil => rfl
  | cons c cs ih =>
    simp only [wsOnly, List.all_cons, Bool.and_eq_true] at hw
    simp [skipWs, hw.1, ih hw.2]

theorem skipWs_cons_notws (c : Char) (l : List Char) (h : isJsonWsChar c = false) :
    skipWs (c :: l) = c :: l := by
  simp [skipWs, h]

theorem wsOnly_spacesL (n : Nat) : wsOnly (spacesL n) = true := by
  simp only [wsOnly, spacesL, List.all_eq_true]
  intro x hx
  rw [List.eq_of_mem_replicate hx]
  rfl

theorem wsOnly_nl_spacesL (n : Nat) : wsOnly ('\n' :: spacesL n) = true := by
  simp only [wsOnly, List.all_cons, Bool.and_eq_true]
  exact ⟨rfl, wsOnly_spacesL n⟩

theorem digitChar_toNat (d : Nat) (h : d < 10) : (digitChar d).toNat = 48 + d := by
  interval_cases d <;> rfl

theorem isDigitCh_digitChar (d : Nat) (h : d < 10) : isDigitCh (digitChar d) = true := by
  interval_cases d <;> rfl

theorem isDigitCh_bounds (c : Char) (h : isDigitCh c = true) :
    48 ≤ c.toNat ∧ c.toNat ≤ 57 := by
  simpa [isDigitCh, Bool.and_eq_true, decide_eq_true_eq] using h

theorem isDigitCh_ne (c : Char) (h : isDigitCh c = true) :
    c ≠ 'n' ∧ c ≠ 't' ∧ c ≠ 'f' ∧ c ≠ '"' ∧ c ≠ '[' ∧ c ≠ '{' ∧ c ≠ '-' ∧
    c ≠ ']' ∧ c ≠ '}' ∧ c ≠ ',' ∧ isJsonWsChar c = false := by
  obtain ⟨h1, h2⟩ := isDigitCh_bounds c h
  refine ⟨?_, ?_, ?_, ?_, ?_, ?_, ?_, ?_, ?_, ?_, ?_⟩
  case _ => intro he; subst he; revert h1 h2; decide
  case _ => intro he; subst he; revert h1 h2; decide
  case _ => intro he; subst he; revert h1 h2; decide
  case _ => intro he; subst he; revert h1 h2; decide
  case _ => intro he; subst he; revert h1 h2; decide
  case _ => intro he; subst he; revert h1 h2; decide
  case _ => intro he; subst he; revert h1 h2; decide
  case _ => intro he; subst he; revert h1 h2; decide
  case _ => intro he; subst he; revert h1 h2; decide
  case _ => intro he; subst he; revert h1 h2; decide
  case _ =>
    cases hws : isJsonWsChar c with
    | false => rfl
    | true =>
      exfalso
      simp only [isJsonWsChar, Bool.or_eq_true, decide_eq_true_eq] at hws
      rcases hws with ((h' | h') | h') | h' <;> (subst h'; revert h1 h2; decide)

theorem natCharsAux_all_digits (f n : Nat) (h : n < f) :
    (natCharsAux f n).all isDigitCh = true := by
  induction f generalizing n with
  | zero => omega
  | succ f ih =>
    simp only [natCharsAux]
    by_cases h10 : n < 10
    · simp [h10, isDigitCh_digitChar n h10]
    · rw [if_neg h10]
      simp only [List.all_append, List.all_cons, List.all_nil, Bool.and_eq_true]
      refine ⟨ih (n / 10) (by omega), isDigitCh_digitChar _ (by omega), trivial⟩

theorem natCharsAux_head (f n : Nat) (h : n < f) :
    ∃ d ds, natCharsAux f n = d :: ds ∧ isDigitCh d = true := by
  induction f generalizing n with
  | zero => omega
  | succ f ih =>
    simp only [natCharsAux]
    by_cases h10 : n < 10
    · exact ⟨digitChar n, [], by rw [if_pos h10], isDigitCh_digitChar n h10⟩
    · rw [if_neg h10]
      obtain ⟨d, ds, hx, hd⟩ := ih (n / 10) (by omega)
      exact ⟨d, ds ++ [digitChar (n % 10)], by rw [hx]; rfl, hd⟩

theorem digitsToNatGo_append (xs : List Char) (c : Char) (acc : Nat) :
    digitsToNatGo (xs ++ [c]) acc = (digitsToNatGo xs acc) * 10 + (c.toNat - 48) := by
  induction xs generalizing acc with
  | nil => rfl
  | cons x xs ih => simp [digitsToNatGo, ih]

theorem digitsToNatGo_natCharsAux (f n acc : Nat) (h : n < f) :
    digitsToNatGo (natCharsAux f n) acc = acc * 10 ^ (natCharsAux f n).length + n := by
  induction f generalizing n acc with
  | zero => omega
  | succ f ih =>
    simp only [natCharsAux]
    by_cases h10 : n < 10
    · rw [if_pos h10]
      simp [digitsToNatGo, digitChar_toNat n h10]
    · rw [if_neg h10]
      rw [digitsToNatGo_append, ih (n / 10) acc (by omega), digitChar_toNat (n % 10) (by omega)]
      simp only [List.length_append, List.length_cons, List.length_nil, pow_succ]
      have hgen : ∀ P : Nat, (acc * P + n / 10) * 10 + (48 + n % 10 - 48) =
          acc * (P * 10) + n := by
        intro P
        have hr : (acc * P + n / 10) * 10 = acc * (P * 10) + n / 10 * 10 := by ring
        rw [hr]
        omega
      exact hgen (10 ^ (natCharsAux f (n / 10)).length)

theorem digitsToNatGo_natToChars (n : Nat) : digitsToNatGo (natToChars n) 0 = n := by
  have h := digitsToNatGo_natCharsAux (n + 1) n 0 (by omega)
  simpa using h

theorem takeDigits_all (ds rest : List Char) (hall : ds.all isDigitCh = true)
    (hrest : headNotDigit rest = true) : takeDigits (ds ++ rest) = (ds, rest) := by
  induction ds with
  | nil =>
    cases rest with
    | nil => rfl
    | cons c cs =>
      simp only [headNotDigit, Bool.not_eq_true'] at hrest
      simp [takeDigits, hrest]
  | cons d ds ih =>
    simp only [List.all_cons, Bool.and_eq_true] at hall
    simp [takeDigits, hall.1, ih hall.2]

theorem parseNatNum_natToChars (n : Nat) (rest : List Char)
    (hrest : headNotDigit rest = true) :
    parseNatNum (natToChars n ++ rest) = some (n, rest) := by
  have htake := takeDigits_all (natToChars n) rest
    (natCharsAux_all_digits (n + 1) n (by omega)) hrest
  obtain ⟨d, ds, hx, hd⟩ := natCharsAux_head (n + 1) n (by omega)
  have hx' : natToChars n = d :: ds := hx
  unfold parseNatNum
  rw [htake, hx']
  simp only []
  rw [← hx', digitsToNatGo_natToChars]

/-! ## Round-trip helper lemmas: string escapes -/

theorem hexVal_hexDigitChar (d : Nat) (h : d < 16) : hexVal? (hexDigitChar d) = some d := by
  interval_cases d <;> rfl

theorem hex4_val (n : Nat) (h : n < 65536) :
    ((n / 4096 % 16 * 16 + n / 256 % 16) * 16 + n / 16 % 16) * 16 + n % 16 = n := by
  omega

theorem char_valid_cases (c : Char) :
    c.toNat < 55296 ∨ (57343 < c.toNat ∧ c.toNat < 1114112) := by
  have h := c.valid
  simp only [UInt32.isValidChar, Nat.isValidChar] at h
  exact h

theorem escapeChar_length_pos (c : Char) : 1 ≤ (escapeChar c).length := by
  unfold escapeChar
  split_ifs <;> simp

theorem concatMap_escape_len (cs : List Char) :
    cs.length ≤ (concatMap escapeChar cs).length := by
  induction cs with
  | nil => simp [concatMap]
  | cons c cs ih =>
    simp only [concatMap, List.length_cons, List.length_append]
    have := escapeChar_length_pos c
    omega

theorem hexVal_hexDigitChar_mod (d : Nat) : hexVal? (hexDigitChar (d % 16)) = some (d % 16) :=
  hexVal_hexDigitChar (d % 16) (by omega)

theorem psb_lit (f : Nat) (c : Char) (rest : List Char) (h1 : c ≠ '"') (h2 : c ≠ '\\') :
    parseStringBody (f + 1) (c :: rest) =
      match parseStringBody f rest with
      | some (cs, r) => some (c :: cs, r)
      | none => none := by
  simp only [parseStringBody]
  rw [if_neg h1, if_neg h2]

theorem psb_short (f : Nat) (e d : Char) (rest : List Char) (he : e ≠ 'u')
    (hd : shortEscape? e = some d) :
    parseStringBody (f + 1) ('\\' :: e :: rest) =
      match parseStringBody f rest with
      | some (cs, r) => some (d :: cs, r)
      | none => none := by
  simp only [parseStringBody, if_true]
  rw [if_neg he, hd, if_neg (show ¬('\\' : Char) = '"' by decide)]

theorem psb_u (f n : Nat) (rest : List Char) (hlt : n < 65536)
    (hns : n < 55296 ∨ 57343 < n) :
    parseStringBody (f + 1) ('\\' :: 'u' :: (hex4 n ++ rest)) =
      match parseStringBody f rest with
      | some (cs, r) => some (Char.ofNat n :: cs, r)
      | none => none := by
  simp only [parseStringBody, hex4, List.cons_append, List.nil_append, if_true]
  simp only [hexVal_hexDigitChar_mod]
  simp only [hex4_val n hlt]
  rcases hns with hcase | hcase <;>
    rw [if_neg (show ¬(55296 ≤ n ∧ n ≤ 56319) by omega),
      if_neg (show ¬(56320 ≤ n ∧ n ≤ 57343) by omega),
      if_neg (show ¬('\\' : Char) = '"' by decide)]

theorem psb_u2 (f t : Nat) (rest : List Char) (h1 : 65536 ≤ t) (h2 : t < 1114112) :
    parseStringBody (f + 1)
      ('\\' :: 'u' :: (hex4 (55296 + (t - 65536) / 1024) ++
        ('\\' :: 'u' :: (hex4 (56320 + (t - 65536) % 1024) ++ rest)))) =
      match parseStringBody f rest with
      | some (cs, r) => some (Char.ofNat t :: cs, r)
      | none => none := by
  have key : ∀ hi lo : Nat, 55296 ≤ hi → hi ≤ 56319 → 56320 ≤ lo → lo ≤ 57343 →
      65536 + (hi - 55296) * 1024 + (lo - 56320) = t →
      parseStringBody (f + 1) ('\\' :: 'u' :: (hex4 hi ++ ('\\' :: 'u' :: (hex4 lo ++ rest)))) =
        match parseStringBody f rest with
        | some (cs, r) => some (Char.ofNat t :: cs, r)
        | none => none := by
    intro hi lo hh1 hh2 hh3 hh4 heq
    simp only [parseStringBody, hex4, List.cons_append, List.nil_append, if_true]
    rw [if_neg (show ¬('\\' : Char) = '"' by decide)]
    simp only [hexVal_hexDigitChar_mod]
    simp only [hex4_val hi (by omega), hex4_val lo (by omega)]
    rw [if_pos (show 55296 ≤ hi ∧ hi ≤ 56319 from ⟨hh1, hh2⟩)]
    rw [if_pos (show 56320 ≤ lo ∧ lo ≤ 57343 from ⟨hh3, hh4⟩)]
    rw [heq]
  exact key _ _ (by omega) (by omega) (by omega) (by omega) (by omega)

theorem psb_escapeChar_step (f : Nat) (c : Char) (T : List Char) :
    parseStringBody (f + 1) (escapeChar c ++ T) =
      match parseStringBody f T with
      | some (cs, r) => some (c :: cs, r)
      | none => none := by
  by_cases h1 : c = '"'
  · subst h1
    exact psb_short f '"' '"' T (by decide) rfl
  · by_cases h2 : c = '\\'
    · subst h2
      rw [show escapeChar '\\' ++ T = '\\' :: '\\' :: T from rfl]
      exact psb_short f '\\' '\\' T (by decide) rfl
    · by_cases h3 : c = '\x08'
      · subst h3
        exact psb_short f 'b' '\x08' T (by decide) rfl
      · by_cases h4 : c = '\x0c'
        · subst h4
          exact psb_short f 'f' '\x0c' T (by decide) rfl
        · by_cases h5 : c = '\n'
          · subst h5
            exact psb_short f 'n' '\n' T (by decide) rfl
          · by_cases h6 : c = '\r'
            · subst h6
              exact psb_short f 'r' '\r' T (by decide) rfl
            · by_cases h7 : c = '\t'
              · subst h7
                exact psb_short f 't' '\t' T (by decide) rfl
              · by_cases h8 : 32 ≤ c.toNat ∧ c.toNat ≤ 126
                · have hesc : escapeChar c = [c] := by
                    unfold escapeChar
                    rw [if_neg h1, if_neg h2, if_neg h3, if_neg h4, if_neg h5,
                      if_neg h6, if_neg h7, if_pos h8]
                  rw [hesc]
                  exact psb_lit f c T h1 h2
                · by_cases h9 : c.toNat < 65536
                  · have hesc : escapeChar c = '\\' :: 'u' :: hex4 c.toNat := by
                      unfold escapeChar
                      rw [if_neg h1, if_neg h2, if_neg h3, if_neg h4, if_neg h5,
                        if_neg h6, if_neg h7, if_neg h8, if_pos h9]
                    rw [hesc]
                    have hns : c.toNat < 55296 ∨ 57343 < c.toNat := by
                      rcases char_valid_cases c with h | h
                      · exact Or.inl h
                      · exact Or.inr h.1
                    rw [show ('\\' :: 'u' :: hex4 c.toNat) ++ T =
                      '\\' :: 'u' :: (hex4 c.toNat ++ T) from by simp]
                    rw [psb_u f c.toNat T h9 hns, Char.ofNat_toNat]
                  · have hbig : 65536 ≤ c.toNat := by omega
                    have htop : c.toNat < 1114112 := by
                      rcases char_valid_cases c with h | h
                      · omega
                      · exact h.2
                    have hesc : escapeChar c =
                        '\\' :: 'u' :: hex4 (55296 + (c.toNat - 65536) / 1024) ++
                          '\\' :: 'u' :: hex4 (56320 + (c.toNat - 65536) % 1024) := by
                      unfold escapeChar
                      rw [if_neg h1, if_neg h2, if_neg h3, if_neg h4, if_neg h5,
                        if_neg h6, if_neg h7, if_neg h8, if_neg h9]
                    rw [hesc]
                    rw [show ('\\' :: 'u' :: hex4 (55296 + (c.toNat - 65536) / 1024) ++
                        '\\' :: 'u' :: hex4 (56320 + (c.toNat - 65536) % 1024)) ++ T =
                      '\\' :: 'u' :: (hex4 (55296 + (c.toNat - 65536) / 1024) ++
                        ('\\' :: 'u' :: (hex4 (56320 + (c.toNat - 65536) % 1024) ++ T)))
                      from by simp]
                    rw [psb_u2 f c.toNat T hbig htop, Char.ofNat_toNat]

theorem parseStringBody_escape (cs rest : List Char) (fuel : Nat)
    (h : cs.length < fuel) :
    parseStringBody fuel (concatMap escapeChar cs ++ '"' :: rest) = some (cs, rest) := by
  induction cs generalizing fuel with
  | nil =>
    cases fuel with
    | zero => omega
    | succ f => rfl
  | cons c cs ih =>
    cases fuel with
    | zero => omega
    | succ f =>
      have hf : cs.length < f := by
        simp only [List.length_cons] at h
        omega
      rw [show concatMap escapeChar (c :: cs) ++ '"' :: rest =
        escapeChar c ++ (concatMap escapeChar cs ++ '"' :: rest) from by simp [concatMap]]
      rw [psb_escapeChar_step, ih f hf]

/-! ## Round-trip helper lemmas: one lemma per parser branch -/

theorem pv_null (f : Nat) (s r : List Char) (h : skipWs s = 'n' :: 'u' :: 'l' :: 'l' :: r) :
    parseValue (f + 1) s = some (.null, r) := by
  simp only [parseValue, h, if_true]
  rfl

theorem pv_true (f : Nat) (s r : List Char) (h : skipWs s = 't' :: 'r' :: 'u' :: 'e' :: r) :
    parseValue (f + 1) s = some (.bool true, r) := by
  simp only [parseValue, h, if_true]
  rw [if_neg (show ¬('t' : Char) = 'n' by decide)]
  rfl

theorem pv_false (f : Nat) (s r : List Char)
    (h : skipWs s = 'f' :: 'a' :: 'l' :: 's' :: 'e' :: r) :
    parseValue (f + 1) s = some (.bool false, r) := by
  simp only [parseValue, h, if_true]
  rw [if_neg (show ¬('f' : Char) = 'n' by decide), if_neg (show ¬('f' : Char) = 't' by decide)]
  rfl

theorem pv_str (f : Nat) (s tail : List Char) (h : skipWs s = '"' :: tail) :
    parseValue (f + 1) s =
      match parseStringBody (tail.length + 1) tail with
      | some (cs, r) => some (.str (String.mk cs), r)
      | none => none := by
  simp only [parseValue, h, if_true]
  rw [if_neg (show ¬('"' : Char) = 'n' by decide), if_neg (show ¬('"' : Char) = 't' by decide),
    if_neg (show ¬('"' : Char) = 'f' by decide)]

theorem pv_bracket (f : Nat) (s tail : List Char) (h : skipWs s = '[' :: tail) :
    parseValue (f + 1) s =
      (match skipWs tail with
      | [] => none
      | d :: r2 =>
        if d = ']' then some (.arr [], r2)
        else
          match parseValue f (d :: r2) with
          | some (v, r3) =>
            match parseArrTail f r3 with
            | some (vs, r4) => some (.arr (v :: vs), r4)
            | none => none
          | none => none) := by
  simp only [parseValue, h, if_true]
  rw [if_neg (show ¬('[' : Char) = 'n' by decide), if_neg (show ¬('[' : Char) = 't' by decide),
    if_neg (show ¬('[' : Char) = 'f' by decide), if_neg (show ¬('[' : Char) = '"' by decide)]

theorem pv_brace (f : Nat) (s tail : List Char) (h : skipWs s = '{' :: tail) :
    parseValue (f + 1) s =
      (match skipWs tail with
      | [] => none
      | d :: r2 =>
        if d = '}' then some (.obj [], r2)
        else
          match parseMember f (d :: r2) with
          | some (kv, r3) =>
            match parseObjTail f r3 with
            | some (fs, r4) => some (.obj (kv :: fs), r4)
            | none => none
          | none => none) := by
  simp only [parseValue, h, if_true]
  rw [if_neg (show ¬('{' : Char) = 'n' by decide), if_neg (show ¬('{' : Char) = 't' by decide),
    if_neg (show ¬('{' : Char) = 'f' by decide), if_neg (show ¬('{' : Char) = '"' by decide),
    if_neg (show ¬('{' : Char) = '[' by decide)]

theorem pv_minus (f : Nat) (s tail : List Char) (h : skipWs s = '-' :: tail) :
    parseValue (f + 1) s =
      match parseNatNum tail with
      | some (m, r) => some (.num (-(m : Int)), r)
      | none => none := by
  simp only [parseValue, h, if_true]
  rw [if_neg (show ¬('-' : Char) = 'n' by decide), if_neg (show ¬('-' : Char) = 't' by decide),
    if_neg (show ¬('-' : Char) = 'f' by decide), if_neg (show ¬('-' : Char) = '"' by decide),
    if_neg (show ¬('-' : Char) = '[' by decide), if_neg (show ¬('-' : Char) = '{' by decide)]

theorem pv_digit (f : Nat) (s tail : List Char) (c : Char) (hc : isDigitCh c = true)
    (h : skipWs s = c :: tail) :
    parseValue (f + 1) s =
      match parseNatNum (c :: tail) with
      | some (m, r) => some (.num ((m : Int)), r)
      | none => none := by
  obtain ⟨n1, n2, n3, n4, n5, n6, n7, _, _, _, _⟩ := isDigitCh_ne c hc
  simp only [parseValue, h, if_true]
  rw [if_neg n1, if_neg n2, if_neg n3, if_neg n4, if_neg n5, if_neg n6, if_neg n7, if_pos hc]

theorem pa_close (f : Nat) (s r : List Char) (h : skipWs s = ']' :: r) :
    parseArrTail (f + 1) s = some ([], r) := by
  simp only [parseArrTail, h, if_true]

theorem pa_comma (f : Nat) (s tail : List Char) (h : skipWs s = ',' :: tail) :
    parseArrTail (f + 1) s =
      (match parseValue f tail with
      | some (v, r2) =>
        match parseArrTail f r2 with
        | some (vs, r3) => some (v :: vs, r3)
        | none => none
      | none => none) := by
  simp only [parseArrTail, h, if_true]
  rw [if_neg (show ¬(',' : Char) = ']' by decide)]

theorem pm_quote (f : Nat) (s tail : List Char) (h : skipWs s = '"' :: tail) :
    parseMember (f + 1) s =
      (match parseStringBody (tail.length + 1) tail with
      | some (cs, r2) =>
        match skipWs r2 with
        | [] => none
        | d :: r3 =>
          if d = ':' then
            match parseValue f r3 with
            | some (v, r4) => some ((String.mk cs, v), r4)
            | none => none
          else none
      | none => none) := by
  simp only [parseMember, h, if_true]

theorem po_close (f : Nat) (s r : List Char) (h : skipWs s = '}' :: r) :
    parseObjTail (f + 1) s = some ([], r) := by
  simp only [parseObjTail, h, if_true]

theorem po_comma (f : Nat) (s tail : List Char) (h : skipWs s = ',' :: tail) :
    parseObjTail (f + 1) s =
      (match parseMember f tail with
      | some (kv, r2) =>
        match parseObjTail f r2 with
        | some (fs, r3) => some (kv :: fs, r3)
        | none => none
      | none => none) := by
  simp only [parseObjTail, h, if_true]
  rw [if_neg (show ¬(',' : Char) = '}' by decide)]

/-! ## Round-trip helper lemmas: heads and tails of printed values -/

theorem dumpsV_head (k : Nat) (v : Json) :
    ∃ c cs, dumpsV k v = c :: cs ∧ isJsonWsChar c = false ∧ c ≠ ']' ∧ c ≠ '}' := by
  cases v with
  | null => exact ⟨'n', ['u', 'l', 'l'], rfl, by decide, by decide, by decide⟩
  | bool b =>
    cases b with
    | true => exact ⟨'t', ['r', 'u', 'e'], rfl, by decide, by decide, by decide⟩
    | false => exact ⟨'f', ['a', 'l', 's', 'e'], rfl, by decide, by decide, by decide⟩
  | num n =>
    by_cases hn : n < 0
    · refine ⟨'-', natToChars n.natAbs, ?_, by decide, by decide, by decide⟩
      simp [dumpsV, intChars, hn]
    · obtain ⟨d, ds, hx, hd⟩ := natCharsAux_head (n.toNat + 1) n.toNat (by omega)
      obtain ⟨_, _, _, _, _, _, _, hne1, hne2, _, hws⟩ := isDigitCh_ne d hd
      refine ⟨d, ds, ?_, hws, hne1, hne2⟩
      have h1 : dumpsV k (Json.num n) = natToChars n.toNat := by
        simp [dumpsV, intChars, hn, natToChars]
      rw [h1]
      exact hx
  | str s => exact ⟨'"', concatMap escapeChar s.data ++ ['"'], rfl, by decide, by decide, by decide⟩
  | arr xs =>
    cases xs with
    | nil => exact ⟨'[', [']'], rfl, by decide, by decide, by decide⟩
    | cons x rest => exact ⟨'[', _, rfl, by decide, by decide, by decide⟩
  | obj fs =>
    cases fs with
    | nil => exact ⟨'{', ['}'], rfl, by decide, by decide, by decide⟩
    | cons g rest =>
      obtain ⟨key, v⟩ := g
      exact ⟨'{', _, rfl, by decide, by decide, by decide⟩

theorem headNotDigit_arr (ki : Nat) (xs : List Json) (z : List Char) :
    headNotDigit (dumpsArrTail ki xs ++ '\n' :: z) = true := by
  cases xs with
  | nil => rfl
  | cons x xs => rfl

theorem headNotDigit_obj (ki : Nat) (fs : List (String × Json)) (z : List Char) :
    headNotDigit (dumpsObjTail ki fs ++ '\n' :: z) = true := by
  cases fs with
  | nil => rfl
  | cons g fs => obtain ⟨key, v⟩ := g; rfl

/-! ## The round-trip induction -/

theorem parse_dumps_main : ∀ fuel : Nat,
    (∀ (v : Json) (k : Nat) (w rest : List Char), wsOnly w = true →
      headNotDigit rest = true → sizeJ v < fuel →
      parseValue fuel (w ++ (dumpsV k v ++ rest)) = some (v, rest)) ∧
    (∀ (xs : List Json) (ki ko : Nat) (rest : List Char), sizeArrJ xs < fuel →
      parseArrTail fuel (dumpsArrTail ki xs ++ '\n' :: (spacesL ko ++ ']' :: rest)) =
        some (xs, rest)) ∧
    (∀ (key : String) (v : Json) (ki : Nat) (w rest : List Char), wsOnly w = true →
      headNotDigit rest = true → sizeJ v + 2 ≤ fuel →
      parseMember fuel (w ++ (escStr key ++ ':' :: ' ' :: (dumpsV ki v ++ rest))) =
        some ((key, v), rest)) ∧
    (∀ (fs : List (String × Json)) (ki ko : Nat) (rest : List Char), sizeObjJ fs < fuel →
      parseObjTail fuel (dumpsObjTail ki fs ++ '\n' :: (spacesL ko ++ '}' :: rest)) =
        some (fs, rest)) := by
  intro fuel
  induction fuel with
  | zero =>
    refine ⟨?_, ?_, ?_, ?_⟩
    · intro v _ _ _ _ _ hsz
      exact absurd hsz (Nat.not_lt_zero _)
    · intro xs _ _ _ hsz
      exact absurd hsz (Nat.not_lt_zero _)
    · intro _ v _ _ _ _ _ hsz
      omega
    · intro fs _ _ _ hsz
      exact absurd hsz (Nat.not_lt_zero _)
  | succ f ih =>
    obtain ⟨IHv, IHa, IHm, IHo⟩ := ih
    refine ⟨?_, ?_, ?_, ?_⟩
    · -- values
      intro v k w rest hw hnd hsz
      cases v with
      | null =>
        have hsk : skipWs (w ++ (dumpsV k Json.null ++ rest)) =
            'n' :: 'u' :: 'l' :: 'l' :: rest := by
          rw [skipWs_ws_append _ _ hw]
          rfl
        exact pv_null f _ rest hsk
      | bool b =>
        cases b with
        | true =>
          have hsk : skipWs (w ++ (dumpsV k (Json.bool true) ++ rest)) =
              't' :: 'r' :: 'u' :: 'e' :: rest := by
            rw [skipWs_ws_append _ _ hw]
            rfl
          exact pv_true f _ rest hsk
        | false =>
          have hsk : skipWs (w ++ (dumpsV k (Json.bool false) ++ rest)) =
              'f' :: 'a' :: 'l' :: 's' :: 'e' :: rest := by
            rw [skipWs_ws_append _ _ hw]
            rfl
          exact pv_false f _ rest hsk
      | num n =>
        by_cases hn : n < 0
        · have hdv : dumpsV k (Json.num n) ++ rest = '-' :: (natToChars n.natAbs ++ rest) := by
            simp [dumpsV, intChars, hn]
          have hsk : skipWs (w ++ (dumpsV k (Json.num n) ++ rest)) =
              '-' :: (natToChars n.natAbs ++ rest) := by
            rw [skipWs_ws_append _ _ hw, hdv]
            exact skipWs_cons_notws _ _ (by decide)
          rw [pv_minus f _ _ hsk]
          rw [parseNatNum_natToChars _ _ hnd]
          have hval : -((n.natAbs : Nat) : Int) = n := by omega
          dsimp only []
          exact congrArg (fun z => some (Json.num z, rest)) hval
        · obtain ⟨d, ds, hx, hd⟩ := natCharsAux_head (n.toNat + 1) n.toNat (by omega)
          have hx' : natToChars n.toNat = d :: ds := hx
          obtain ⟨_, _, _, _, _, _, _, _, _, _, hws⟩ := isDigitCh_ne d hd
          have hdv : dumpsV k (Json.num n) ++ rest = d :: (ds ++ rest) := by
            have h1 : dumpsV k (Json.num n) = natToChars n.toNat := by
              simp [dumpsV, intChars, hn, natToChars]
            rw [h1, hx']
            simp
          have hsk : skipWs (w ++ (dumpsV k (Json.num n) ++ rest)) = d :: (ds ++ rest) := by
            rw [skipWs_ws_append _ _ hw, hdv]
            exact skipWs_cons_notws _ _ hws
          rw [pv_digit f _ _ d hd hsk]
          have hback : d :: (ds ++ rest) = natToChars n.toNat ++ rest := by
            rw [hx']
            simp
          rw [hback, parseNatNum_natToChars _ _ hnd]
          have hval : ((n.toNat : Nat) : Int) = n := by omega
          dsimp only []
          exact congrArg (fun z => some (Json.num z, rest)) hval
      | str s =>
        have hdv : dumpsV k (Json.str s) ++ rest =
            '"' :: (concatMap escapeChar s.data ++ '"' :: rest) := by
          show escStr s ++ rest = _
          simp [escStr]
        have hsk : skipWs (w ++ (dumpsV k (Json.str s) ++ rest)) =
            '"' :: (concatMap escapeChar s.data ++ '"' :: rest) := by
          rw [skipWs_ws_append _ _ hw, hdv]
          exact skipWs_cons_notws _ _ (by decide)
        rw [pv_str f _ _ hsk]
        rw [parseStringBody_escape s.data rest _ (by
          simp only [List.length_append, List.length_cons]
          have := concatMap_escape_len s.data
          omega)]
      | arr xs =>
        cases xs with
        | nil =>
          have hsk : skipWs (w ++ (dumpsV k (Json.arr []) ++ rest)) = '[' :: (']' :: rest) := by
            rw [skipWs_ws_append _ _ hw]
            rfl
          rw [pv_bracket f _ _ hsk]
          rw [skipWs_cons_notws _ _ (by decide : isJsonWsChar ']' = false)]
          simp
        | cons x xs =>
          simp only [sizeJ, sizeArrJ] at hsz
          obtain ⟨d, ds, hx, hdws, hd1, hd2⟩ := dumpsV_head (k + 2) x
          have hshape : dumpsV k (Json.arr (x :: xs)) ++ rest =
              '[' :: ('\n' :: (spacesL (k + 2) ++ (dumpsV (k + 2) x ++
                (dumpsArrTail (k + 2) xs ++ '\n' :: (spacesL k ++ ']' :: rest))))) := by
            show ('[' :: '\n' :: (spacesL (k + 2) ++ dumpsV (k + 2) x ++
              dumpsArrTail (k + 2) xs ++ '\n' :: (spacesL k ++ [']']))) ++ rest = _
            simp [List.append_assoc]
          have hsk : skipWs (w ++ (dumpsV k (Json.arr (x :: xs)) ++ rest)) =
              '[' :: ('\n' :: (spacesL (k + 2) ++ (dumpsV (k + 2) x ++
                (dumpsArrTail (k + 2) xs ++ '\n' :: (spacesL k ++ ']' :: rest))))) := by
            rw [skipWs_ws_append _ _ hw, hshape]
            exact skipWs_cons_notws _ _ (by decide)
          rw [pv_bracket f _ _ hsk]
          have hsk2 : skipWs ('\n' :: (spacesL (k + 2) ++ (dumpsV (k + 2) x ++
              (dumpsArrTail (k + 2) xs ++ '\n' :: (spacesL k ++ ']' :: rest))))) =
              d :: (ds ++ (dumpsArrTail (k + 2) xs ++ '\n' :: (spacesL k ++ ']' :: rest))) := by
            rw [show ('\n' :: (spacesL (k + 2) ++ (dumpsV (k + 2) x ++
                (dumpsArrTail (k + 2) xs ++ '\n' :: (spacesL k ++ ']' :: rest))))) =
              ('\n' :: spacesL (k + 2)) ++ (dumpsV (k + 2) x ++
                (dumpsArrTail (k + 2) xs ++ '\n' :: (spacesL k ++ ']' :: rest))) from by simp]
            rw [skipWs_ws_append _ _ (wsOnly_nl_spacesL (k + 2)), hx]
            exact skipWs_cons_notws _ _ hdws
          rw [hsk2]
          dsimp only []
          rw [if_neg hd1]
          have hrec1 : parseValue f
              (d :: (ds ++ (dumpsArrTail (k + 2) xs ++ '\n' :: (spacesL k ++ ']' :: rest)))) =
              some (x, dumpsArrTail (k + 2) xs ++ '\n' :: (spacesL k ++ ']' :: rest)) := by
            have h := IHv x (k + 2) []
              (dumpsArrTail (k + 2) xs ++ '\n' :: (spacesL k ++ ']' :: rest)) rfl
              (headNotDigit_arr (k + 2) xs _) (by omega)
            rw [List.nil_append, hx] at h
            simpa using h
          rw [hrec1]
          have hrec2 : parseArrTail f
              (dumpsArrTail (k + 2) xs ++ '\n' :: (spacesL k ++ ']' :: rest)) =
              some (xs, rest) := IHa xs (k + 2) k rest (by omega)
          simp [hrec2]
      | obj fs =>
        cases fs with
        | nil =>
          have hsk : skipWs (w ++ (dumpsV k (Json.obj []) ++ rest)) = '{' :: ('}' :: rest) := by
            rw [skipWs_ws_append _ _ hw]
            rfl
          rw [pv_brace f _ _ hsk]
          rw [skipWs_cons_notws _ _ (by decide : isJsonWsChar '}' = false)]
          simp
        | cons g fs =>
          obtain ⟨key, v⟩ := g
          simp only [sizeJ, sizeObjJ] at hsz
          have hshape : dumpsV k (Json.obj ((key, v) :: fs)) ++ rest =
              '{' :: ('\n' :: (spacesL (k + 2) ++ (escStr key ++ ':' :: ' ' ::
                (dumpsV (k + 2) v ++
                  (dumpsObjTail (k + 2) fs ++ '\n' :: (spacesL k ++ '}' :: rest)))))) := by
            show ('{' :: '\n' :: (spacesL (k + 2) ++ escStr key ++ ':' :: ' ' ::
              dumpsV (k + 2) v ++ dumpsObjTail (k + 2) fs ++
                '\n' :: (spacesL k ++ ['}']))) ++ rest = _
            simp [List.append_assoc]
          have hsk : skipWs (w ++ (dumpsV k (Json.obj ((key, v) :: fs)) ++ rest)) =
              '{' :: ('\n' :: (spacesL (k + 2) ++ (escStr key ++ ':' :: ' ' ::
                (dumpsV (k + 2) v ++
                  (dumpsObjTail (k + 2) fs ++ '\n' :: (spacesL k ++ '}' :: rest)))))) := by
            rw [skipWs_ws_append _ _ hw, hshape]
            exact skipWs_cons_notws _ _ (by decide)
          rw [pv_brace f _ _ hsk]
          have hsk2 : skipWs ('\n' :: (spacesL (k + 2) ++ (escStr key ++ ':' :: ' ' ::
              (dumpsV (k + 2) v ++
                (dumpsObjTail (k + 2) fs ++ '\n' :: (spacesL k ++ '}' :: rest)))))) =
              '"' :: (concatMap escapeChar key.data ++ '"' :: (':' :: ' ' ::
                (dumpsV (k + 2) v ++
                  (dumpsObjTail (k + 2) fs ++ '\n' :: (spacesL k ++ '}' :: rest))))) := by
            rw [show ('\n' :: (spacesL (k + 2) ++ (escStr key ++ ':' :: ' ' ::
                (dumpsV (k + 2) v ++
                  (dumpsObjTail (k + 2) fs ++ '\n' :: (spacesL k ++ '}' :: rest)))))) =
              ('\n' :: spacesL (k + 2)) ++ (escStr key ++ ':' :: ' ' ::
                (dumpsV (k + 2) v ++
                  (dumpsObjTail (k + 2) fs ++ '\n' :: (spacesL k ++ '}' :: rest)))) from by simp]
            rw [skipWs_ws_append _ _ (wsOnly_nl_spacesL (k + 2))]
            rw [show escStr key ++ ':' :: ' ' :: (dumpsV (k + 2) v ++
                (dumpsObjTail (k + 2) fs ++ '\n' :: (spacesL k ++ '}' :: rest))) =
              '"' :: (concatMap escapeChar key.data ++ '"' :: (':' :: ' ' ::
                (dumpsV (k + 2) v ++
                  (dumpsObjTail (k + 2) fs ++ '\n' :: (spacesL k ++ '}' :: rest)))))
              from by simp [escStr]]
            exact skipWs_cons_notws _ _ (by decide)
          rw [hsk2]
          dsimp only []
          rw [if_neg (by decide : ¬('"' : Char) = '}')]
          have hmem : parseMember f ('"' :: (concatMap escapeChar key.data ++ '"' ::
              (':' :: ' ' :: (dumpsV (k + 2) v ++
                (dumpsObjTail (k + 2) fs ++ '\n' :: (spacesL k ++ '}' :: rest)))))) =
              some ((key, v),
                dumpsObjTail (k + 2) fs ++ '\n' :: (spacesL k ++ '}' :: rest)) := by
            have h := IHm key v (k + 2) []
              (dumpsObjTail (k + 2) fs ++ '\n' :: (spacesL k ++ '}' :: rest)) rfl
              (headNotDigit_obj (k + 2) fs _) (by omega)
            rw [List.nil_append] at h
            rw [show escStr key ++ ':' :: ' ' :: (dumpsV (k + 2) v ++
                (dumpsObjTail (k + 2) fs ++ '\n' :: (spacesL k ++ '}' :: rest))) =
              '"' :: (concatMap escapeChar key.data ++ '"' :: (':' :: ' ' ::
                (dumpsV (k + 2) v ++
                  (dumpsObjTail (k + 2) fs ++ '\n' :: (spacesL k ++ '}' :: rest)))))
              from by simp [escStr]] at h
            exact h
          rw [hmem]
          have hobj : parseObjTail f
              (dumpsObjTail (k + 2) fs ++ '\n' :: (spacesL k ++ '}' :: rest)) =
              some (fs, rest) := IHo fs (k + 2) k rest (by omega)
          simp [hobj]
    · -- array tails
      intro xs ki ko rest hsz
      cases xs with
      | nil =>
        have hsk : skipWs (dumpsArrTail ki [] ++ '\n' :: (spacesL ko ++ ']' :: rest)) =
            ']' :: rest := by
          rw [show dumpsArrTail ki [] ++ '\n' :: (spacesL ko ++ ']' :: rest) =
            ('\n' :: spacesL ko) ++ (']' :: rest) from by simp [dumpsArrTail]]
          rw [skipWs_ws_append _ _ (wsOnly_nl_spacesL ko)]
          exact skipWs_cons_notws _ _ (by decide)
        exact pa_close f _ rest hsk
      | cons x xs =>
        simp only [sizeArrJ] at hsz
        have hsk : skipWs (dumpsArrTail ki (x :: xs) ++ '\n' :: (spacesL ko ++ ']' :: rest)) =
            ',' :: ('\n' :: (spacesL ki ++ (dumpsV ki x ++
              (dumpsArrTail ki xs ++ '\n' :: (spacesL ko ++ ']' :: rest))))) := by
          rw [show dumpsArrTail ki (x :: xs) ++ '\n' :: (spacesL ko ++ ']' :: rest) =
            ',' :: ('\n' :: (spacesL ki ++ (dumpsV ki x ++
              (dumpsArrTail ki xs ++ '\n' :: (spacesL ko ++ ']' :: rest)))))
            from by simp [dumpsArrTail, List.append_assoc]]
          exact skipWs_cons_notws _ _ (by decide)
        rw [pa_comma f _ _ hsk]
        have hrec1 : parseValue f ('\n' :: (spacesL ki ++ (dumpsV ki x ++
            (dumpsArrTail ki xs ++ '\n' :: (spacesL ko ++ ']' :: rest))))) =
            some (x, dumpsArrTail ki xs ++ '\n' :: (spacesL ko ++ ']' :: rest)) := by
          have h := IHv x ki ('\n' :: spacesL ki)
            (dumpsArrTail ki xs ++ '\n' :: (spacesL ko ++ ']' :: rest))
            (wsOnly_nl_spacesL ki) (headNotDigit_arr ki xs _) (by omega)
          simpa [List.append_assoc] using h
        rw [hrec1]
        have hrec2 : parseArrTail f
            (dumpsArrTail ki xs ++ '\n' :: (spacesL ko ++ ']' :: rest)) =
            some (xs, rest) := IHa xs ki ko rest (by omega)
        simp [hrec2]
    · -- members
      intro key v ki w rest hw hnd hsz
      have hsk : skipWs (w ++ (escStr key ++ ':' :: ' ' :: (dumpsV ki v ++ rest))) =
          '"' :: (concatMap escapeChar key.data ++ '"' ::
            (':' :: ' ' :: (dumpsV ki v ++ rest))) := by
        rw [skipWs_ws_append _ _ hw]
        rw [show escStr key ++ ':' :: ' ' :: (dumpsV ki v ++ rest) =
          '"' :: (concatMap escapeChar key.data ++ '"' ::
            (':' :: ' ' :: (dumpsV ki v ++ rest))) from by simp [escStr]]
        exact skipWs_cons_notws _ _ (by decide)
      rw [pm_quote f _ _ hsk]
      rw [parseStringBody_escape key.data (':' :: ' ' :: (dumpsV ki v ++ rest)) _ (by
        simp only [List.length_append, List.length_cons]
        have := concatMap_escape_len key.data
        omega)]
      have hsk3 : skipWs (':' :: ' ' :: (dumpsV ki v ++ rest)) =
          ':' :: (' ' :: (dumpsV ki v ++ rest)) :=
        skipWs_cons_notws _ _ (by decide)
      dsimp only []
      rw [hsk3]
      have hrec : parseValue f (' ' :: (dumpsV ki v ++ rest)) = some (v, rest) := by
        have h := IHv v ki [' '] rest (by decide) hnd (by omega)
        simpa using h
      simp [hrec]
    · -- object tails
      intro fs ki ko rest hsz
      cases fs with
      | nil =>
        have hsk : skipWs (dumpsObjTail ki [] ++ '\n' :: (spacesL ko ++ '}' :: rest)) =
            '}' :: rest := by
          rw [show dumpsObjTail ki [] ++ '\n' :: (spacesL ko ++ '}' :: rest) =
            ('\n' :: spacesL ko) ++ ('}' :: rest) from by simp [dumpsObjTail]]
          rw [skipWs_ws_append _ _ (wsOnly_nl_spacesL ko)]
          exact skipWs_cons_notws _ _ (by decide)
        exact po_close f _ rest hsk
      | cons g fs =>
        obtain ⟨key, v⟩ := g
        simp only [sizeObjJ] at hsz
        have hsk : skipWs (dumpsObjTail ki ((key, v) :: fs) ++
            '\n' :: (spacesL ko ++ '}' :: rest)) =
            ',' :: ('\n' :: (spacesL ki ++ (escStr key ++ ':' :: ' ' :: (dumpsV ki v ++
              (dumpsObjTail ki fs ++ '\n' :: (spacesL ko ++ '}' :: rest)))))) := by
          rw [show dumpsObjTail ki ((key, v) :: fs) ++ '\n' :: (spacesL ko ++ '}' :: rest) =
            ',' :: ('\n' :: (spacesL ki ++ (escStr key ++ ':' :: ' ' :: (dumpsV ki v ++
              (dumpsObjTail ki fs ++ '\n' :: (spacesL ko ++ '}' :: rest))))))
            from by simp [dumpsObjTail, List.append_assoc]]
          exact skipWs_cons_notws _ _ (by decide)
        rw [po_comma f _ _ hsk]
        have hrec1 : parseMember f ('\n' :: (spacesL ki ++ (escStr key ++ ':' :: ' ' ::
            (dumpsV ki v ++
              (dumpsObjTail ki fs ++ '\n' :: (spacesL ko ++ '}' :: rest)))))) =
            some ((key, v), dumpsObjTail ki fs ++ '\n' :: (spacesL ko ++ '}' :: rest)) := by
          have h := IHm key v ki ('\n' :: spacesL ki)
            (dumpsObjTail ki fs ++ '\n' :: (spacesL ko ++ '}' :: rest))
            (wsOnly_nl_spacesL ki) (headNotDigit_obj ki fs _) (by omega)
          simpa [List.append_assoc] using h
        rw [hrec1]
        have hrec2 : parseObjTail f
            (dumpsObjTail ki fs ++ '\n' :: (spacesL ko ++ '}' :: rest)) =
            some (fs, rest) := IHo fs ki ko rest (by omega)
        simp [hrec2]

/-! ## The round-trip theorem -/

theorem natToChars_length_pos (n : Nat) : 1 ≤ (natToChars n).length := by
  obtain ⟨d, ds, hx, _⟩ := natCharsAux_head (n + 1) n (by omega)
  have hx' : natToChars n = d :: ds := hx
  rw [hx']
  simp

mutual
theorem sizeJ_le_dumps : ∀ (v : Json) (k : Nat), sizeJ v ≤ (dumpsV k v).length
  | .null, _ => by simp [sizeJ, dumpsV]
  | .bool b, _ => by cases b <;> simp [sizeJ, dumpsV]
  | .num n, k => by
    simp only [sizeJ, dumpsV, intChars]
    split_ifs
    · simp only [List.length_cons]
      omega
    · exact natToChars_length_pos _
  | .str s, _ => by simp [sizeJ, dumpsV, escStr]
  | .arr xs, k => by
    cases xs with
    | nil => simp [sizeJ, sizeArrJ, dumpsV]
    | cons x xs =>
      have h1 := sizeJ_le_dumps x (k + 2)
      have h2 := sizeArrJ_le xs (k + 2)
      simp only [sizeJ, sizeArrJ, dumpsV, List.length_cons, List.length_append]
      omega
  | .obj fs, k => by
    cases fs with
    | nil => simp [sizeJ, sizeObjJ, dumpsV]
    | cons g fs =>
      obtain ⟨key, v⟩ := g
      have h1 := sizeJ_le_dumps v (k + 2)
      have h2 := sizeObjJ_le fs (k + 2)
      simp only [sizeJ, sizeObjJ, dumpsV, List.length_cons, List.length_append]
      omega

theorem sizeArrJ_le : ∀ (xs : List Json) (k : Nat), sizeArrJ xs ≤ (dumpsArrTail k xs).length
  | [], _ => by simp [sizeArrJ, dumpsArrTail]
  | x :: xs, k => by
    have h1 := sizeJ_le_dumps x k
    have h2 := sizeArrJ_le xs k
    simp only [sizeArrJ, dumpsArrTail, List.length_cons, List.length_append]
    omega

theorem sizeObjJ_le : ∀ (fs : List (String × Json)) (k : Nat),
    sizeObjJ fs ≤ (dumpsObjTail k fs).length
  | [], _ => by simp [sizeObjJ, dumpsObjTail]
  | (key, v) :: fs, k => by
    have h1 := sizeJ_le_dumps v k
    have h2 := sizeObjJ_le fs k
    simp only [sizeObjJ, dumpsObjTail, List.length_cons, List.length_append]
    omega
end

/-- Serialize-then-parse is the identity: `json.loads` reads back exactly the
value `json.dumps(·, indent=2)` printed. -/
theorem json_loads_dumps (v : Json) : json_loads (json_dumps v) = some v := by
  have hdata : (json_dumps v).data = dumpsV 0 v := rfl
  have hlen : sizeJ v < (dumpsV 0 v).length + 1 := by
    have := sizeJ_le_dumps v 0
    omega
  have h := (parse_dumps_main ((dumpsV 0 v).length + 1)).1 v 0 [] [] rfl rfl hlen
  simp only [List.nil_append, List.append_nil] at h
  unfold json_loads
  rw [hdata, h]
  rfl

/-! ## Claim C7 -/

/-- C7: with `showFull=true` and a decoded 200 body, `run_query` prints
`json.dumps(data, indent=2)` — the indented serialization of the full
structured result — returns the data, and parsing that printed text back
(`json_loads`) yields a structure equal to the original decoded body: the
serialize-then-parse round trip is the identity. -/
theorem c7_show_full_roundtrip (credFile : Option (List String)) (k sql text : String)
    (data : Json) (hload : load_api_key credFile = LoadOutcome.token k) :
    run_query credFile sql true (.response 200 (.ok data) text) =
      ⟨rqPre sql ++ printLines (json_dumps data), some data, .normal, 1⟩ ∧
    json_loads (json_dumps data) = some data := by
  refine ⟨?_, json_loads_dumps data⟩
  simp [run_query, hload]

/-- C7 (witness): on the body `{"columns": [1, "a", null]}` the full dump is
printed and parses back to the same value. -/
theorem c7_witness :
    run_query (some (["LOGFIRE_READ_TOKEN=k"])) ("q") true
      (.response 200
        (.ok (Json.obj [(("columns" : String),
          Json.arr [Json.num 1, Json.str ("a"), Json.null])])) ("")) =
      ⟨rqPre ("q") ++ printLines (json_dumps (Json.obj [(("columns" : String),
          Json.arr [Json.num 1, Json.str ("a"), Json.null])])),
       some (Json.obj [(("columns" : String),
          Json.arr [Json.num 1, Json.str ("a"), Json.null])]), .normal, 1⟩ ∧
    json_loads (json_dumps (Json.obj [(("columns" : String),
      Json.arr [Json.num 1, Json.str ("a"), Json.null])])) =
      some (Json.obj [(("columns" : String),
        Json.arr [Json.num 1, Json.str ("a"), Json.null])]) :=
  c7_show_full_roundtrip (some (["LOGFIRE_READ_TOKEN=k"])) ("k") ("q") ("")
    (Json.obj [(("columns" : String), Json.arr [Json.num 1, Json.str ("a"), Json.null])])
    rfl
